import Mathlib

/-!
Verification of the money-manager budget/transaction engine.

Shallow embedding of the TypeScript services:
  - `TransactionService.calculateDueDateMonth` (billing attribution resolver),
  - `AccountService.getCurrentBalance` (balance calculator),
  - `TransactionService.getAggregatedByYear` (transaction aggregator),
  - `BudgetService.syncBudgets` / `create` / `update` (budget synchronizer),
  - `BudgetService.getComparison` (comparison engine),
  - `TransactionService.create` (transfer/subcategory validation),
  - `CategoryService.hide` / `unhide` (cascading hide).

Amounts are modelled as exact rationals, timestamps as naturals
(milliseconds since the epoch) or as (year, month, day) triples where the
code only consults calendar fields.  JavaScript truthiness tests on numeric
foreign keys (`if (t.accountId)`) are modelled by `truthyId` which rejects
both `null` and `0`.
-/

set_option maxRecDepth 4000

inductive CType where
  | EXPENSE
  | INCOME
  | TRANSFER
deriving DecidableEq, Repr

inductive AccountType where
  | CREDIT
  | CASH
  | PREPAID
deriving DecidableEq, Repr

inductive DebitMethod where
  | PER_PURCHASE
  | INVOICE
deriving DecidableEq, Repr

inductive BudgetMonthBasis where
  | TRANSACTION_DATE
  | DUE_DATE
deriving DecidableEq, Repr

/-- JS truthiness of an optional numeric id: `null`/`undefined` and `0` are falsy. -/
def truthyId : Option Int → Option Int
  | none => none
  | some v => if v = 0 then none else some v

/-- JS truthiness of an optional day/month number: `null`/`undefined` and `0` are falsy. -/
def truthyNat : Option Nat → Option Nat
  | none => none
  | some v => if v = 0 then none else some v

/-- Result of the billing attribution resolver: due month (1-12) and absolute year. -/
structure DueDate where
  month : Nat
  year : Int
deriving DecidableEq, Repr

/-- `TransactionService.calculateDueDateMonth`.  `txMonth0` is the JS
`Date.getMonth()` value (0-11); `txDay` is `getDate()` (1-31).  Mirrors the
two rollover steps of the source: move to next month's bill when the day is
past the closing day, then move to the next month again when the due day
precedes the closing day. -/
def calculateDueDateMonth (txDay txMonth0 : Nat) (txYear : Int)
    (closingDay dueDay : Nat) : DueDate :=
  let billing : Nat × Int :=
    if txDay > closingDay then
      if txMonth0 + 1 > 11 then (0, txYear + 1) else (txMonth0 + 1, txYear)
    else (txMonth0, txYear)
  let due : Nat × Int :=
    if dueDay < closingDay then
      if billing.1 + 1 > 11 then (0, billing.2 + 1) else (billing.1 + 1, billing.2)
    else billing
  { month := due.1 + 1, year := due.2 }

/-- Absolute month index of a `DueDate` (months since year 0). -/
def DueDate.absMonth (d : DueDate) : Int := 12 * d.year + (d.month - 1 : Int)

/-- C1: billing-cycle attribution.  On day `D` (month index `M0`, year `Y`):
the result's absolute month equals the transaction's absolute month plus one
when `D > closingDay` (cycle closes next month, rolling December into
January) plus one more when `dueDay < closingDay` (payment due the month
after closing); the returned month is always in 1..12.  In particular with
closingDay 20 and dueDay 10 a purchase on the 25th lands two months later
and a purchase on the 15th one month later, across year boundaries. -/
theorem calculateDueDateMonth_attribution
    (txDay txMonth0 : Nat) (txYear : Int) (closingDay dueDay : Nat)
    (hm : txMonth0 ≤ 11) :
    (calculateDueDateMonth txDay txMonth0 txYear closingDay dueDay).absMonth =
        12 * txYear + txMonth0
          + (if txDay ≤ closingDay then 0 else 1)
          + (if dueDay < closingDay then 1 else 0) ∧
    1 ≤ (calculateDueDateMonth txDay txMonth0 txYear closingDay dueDay).month ∧
    (calculateDueDateMonth txDay txMonth0 txYear closingDay dueDay).month ≤ 12 ∧
    calculateDueDateMonth 25 4 2024 20 10 = { month := 7, year := 2024 } ∧
    calculateDueDateMonth 15 11 2024 20 10 = { month := 1, year := 2025 } := by
  refine ⟨?_, ?_, ?_, by decide, by decide⟩ <;>
    (simp only [calculateDueDateMonth, DueDate.absMonth]
     split_ifs <;> simp_all <;> omega)

/-- Witness for C1 at day 25, month index 4 (May), year 2024, closing 20, due 10. -/
theorem calculateDueDateMonth_attribution_witness :
    (calculateDueDateMonth 25 4 2024 20 10).absMonth =
        12 * 2024 + 4 + (if (25 : Nat) ≤ 20 then 0 else 1)
          + (if (10 : Nat) < 20 then 1 else 0) ∧
    1 ≤ (calculateDueDateMonth 25 4 2024 20 10).month := by
  have h := calculateDueDateMonth_attribution 25 4 2024 20 10 (by decide)
  exact ⟨h.1, h.2.1⟩

/-! ## Balance calculator (`AccountService.getCurrentBalance`) -/

/-- A row of the `Transaction` table as consulted by the balance calculator.
`date` is a timestamp in milliseconds since the epoch. -/
structure BalTx where
  accountId : Option Int
  toAccountId : Option Int
  userId : Int
  groupId : Option Int
  amount : ℚ
  date : Nat
  type : CType
deriving DecidableEq, Repr

/-- A row of the `AccountBalance` table. -/
structure Snapshot where
  id : Int
  accountId : Int
  amount : ℚ
  date : Nat
  createdAt : Nat
deriving DecidableEq, Repr

/-- The fields of an `Account` row consulted by the balance calculator. -/
structure BalAccount where
  id : Int
  userId : Int
  groupId : Option Int
deriving DecidableEq, Repr

/-- The stored state read by `getCurrentBalance`. -/
structure BalanceStore where
  balances : List Snapshot
  transactions : List BalTx
deriving DecidableEq, Repr

/-- `findFirst` on `AccountBalance` ordered by date descending: the snapshot
for the account with the greatest date (first such row on ties). -/
def latestSnapshot (balances : List Snapshot) (accountId : Int) : Option Snapshot :=
  (balances.filter (fun b => b.accountId = accountId)).foldl
    (fun best b =>
      match best with
      | none => some b
      | some x => if b.date > x.date then some b else best)
    none

/-- The transaction filter of `getCurrentBalance`: date strictly after the
baseline, referencing the account as source or destination, and in the same
ownership scope (account's group, or the account's user with no group). -/
def txMatches (account : BalAccount) (baselineDate : Nat) (t : BalTx) : Bool :=
  baselineDate < t.date &&
  (t.accountId = some account.id || t.toAccountId = some account.id) &&
  (match account.groupId with
   | some g => t.groupId = some g
   | none => t.userId = account.userId && t.groupId = none)

/-- One step of the balance fold, exactly as in the source:
income adds when the account is the source, expense subtracts when the
account is the source, a transfer subtracts from the source and adds to the
destination. -/
def applyTx (accountId : Int) (net : ℚ) (t : BalTx) : ℚ :=
  match t.type with
  | CType.INCOME => if t.accountId = some accountId then net + t.amount else net
  | CType.EXPENSE => if t.accountId = some accountId then net - t.amount else net
  | CType.TRANSFER =>
      let n1 := if t.accountId = some accountId then net - t.amount else net
      if t.toAccountId = some accountId then n1 + t.amount else n1

/-- One step of the latest-transaction-date fold of the source
(`t.date > (latestTxDate ?? new Date(0))`). -/
def latestDateStep (latest : Option Nat) (t : BalTx) : Option Nat :=
  if t.date > latest.getD 0 then some t.date else latest

/-- Result of `getCurrentBalance` (the synthetic `AccountBalance` object);
only the amount and as-of date are relevant to the spec. -/
structure BalanceResult where
  amount : ℚ
  date : Nat
deriving DecidableEq, Repr

/-- Baseline date used by `getCurrentBalance`: snapshot date, or the epoch. -/
def balBaselineDate (store : BalanceStore) (account : BalAccount) : Nat :=
  match latestSnapshot store.balances account.id with
  | some b => b.date
  | none => 0

/-- Baseline amount used by `getCurrentBalance`: snapshot amount, or 0. -/
def balBaselineAmount (store : BalanceStore) (account : BalAccount) : ℚ :=
  match latestSnapshot store.balances account.id with
  | some b => b.amount
  | none => 0

/-- The ledger movements applied on top of the baseline. -/
def filteredBalTxs (store : BalanceStore) (account : BalAccount) : List BalTx :=
  store.transactions.filter (txMatches account (balBaselineDate store account))

/-- `AccountService.getCurrentBalance`.  `now` is the value of `new Date()`
at the time of the call.  The source sorts the filtered transactions by
ascending date before folding; the fold computes a sum and a maximum, both
order-independent, so the embedding folds in store order. -/
def getCurrentBalance (store : BalanceStore) (account : BalAccount) (now : Nat) :
    BalanceResult :=
  let lastBalance := latestSnapshot store.balances account.id
  let txs := filteredBalTxs store account
  let net := txs.foldl (applyTx account.id) 0
  let latestTxDate := txs.foldl latestDateStep none
  { amount := balBaselineAmount store account + net,
    date := latestTxDate.getD (match lastBalance with | some b => b.date | none => now) }

/-- The claim-side signed contribution of one transaction to an account. -/
def txDelta (accountId : Int) (t : BalTx) : ℚ :=
  match t.type with
  | CType.INCOME => if t.accountId = some accountId then t.amount else 0
  | CType.EXPENSE => if t.accountId = some accountId then -t.amount else 0
  | CType.TRANSFER =>
      (if t.accountId = some accountId then -t.amount else 0) +
      (if t.toAccountId = some accountId then t.amount else 0)

theorem applyTx_eq (accountId : Int) (net : ℚ) (t : BalTx) :
    applyTx accountId net t = net + txDelta accountId t := by
  unfold applyTx txDelta
  rcases t with ⟨a, b, u, g, amt, d, ty⟩
  cases ty <;> dsimp only <;> split_ifs <;> ring

theorem foldl_applyTx (accountId : Int) (l : List BalTx) (x : ℚ) :
    l.foldl (applyTx accountId) x = x + (l.map (txDelta accountId)).sum := by
  induction l generalizing x with
  | nil => simp
  | cons t rest ih =>
      simp only [List.foldl_cons, List.map_cons, List.sum_cons, applyTx_eq]
      rw [ih]; ring

theorem latestDateStep_some (m : Nat) (t : BalTx) :
    latestDateStep (some m) t = some (max m t.date) := by
  unfold latestDateStep
  simp only [Option.getD_some]
  split
  · next h => rw [Nat.max_eq_right (Nat.le_of_lt h)]
  · next h => rw [Nat.max_eq_left (Nat.le_of_not_lt h)]

theorem foldl_latestDateStep_some (l : List BalTx) (m : Nat) :
    l.foldl latestDateStep (some m) =
      some (l.foldl (fun acc t => max acc t.date) m) := by
  induction l generalizing m with
  | nil => rfl
  | cons t rest ih => simp only [List.foldl_cons, latestDateStep_some, ih]

theorem foldl_max_map (l : List BalTx) : ∀ m : Nat,
    l.foldl (fun acc t => max acc t.date) m = (l.map (fun x => x.date)).foldl max m := by
  induction l with
  | nil => intro m; rfl
  | cons s rest ih => intro m; simp only [List.foldl_cons, List.map_cons]; exact ih _

theorem foldl_latestDateStep_pos (t : BalTx) (rest : List BalTx) (ht : 0 < t.date) :
    (t :: rest).foldl latestDateStep none =
      some (((t :: rest).map (fun x => x.date)).foldl max 0) := by
  simp only [List.foldl_cons, List.map_cons]
  have h1 : latestDateStep none t = some t.date := by
    unfold latestDateStep
    simp only [Option.getD_none]
    rw [if_pos ht]
  rw [h1, foldl_latestDateStep_some, foldl_max_map]
  have h2 : max 0 t.date = t.date := Nat.max_eq_right (Nat.zero_le _)
  rw [h2]

/-- C2 (amended): the balance is the baseline (latest snapshot amount, or 0)
plus the signed sum of the matching transactions; the as-of date is the
maximum matching transaction date, else the baseline snapshot date when a
snapshot exists, else the time of the call (not the epoch baseline). -/
theorem getCurrentBalance_spec (store : BalanceStore) (account : BalAccount) (now : Nat) :
    (getCurrentBalance store account now).amount =
        balBaselineAmount store account +
          ((filteredBalTxs store account).map (txDelta account.id)).sum ∧
    (filteredBalTxs store account ≠ [] →
      (getCurrentBalance store account now).date =
        ((filteredBalTxs store account).map (fun t => t.date)).foldl max 0) ∧
    (filteredBalTxs store account = [] →
      ∀ b, latestSnapshot store.balances account.id = some b →
        (getCurrentBalance store account now).date = b.date) ∧
    (filteredBalTxs store account = [] →
      latestSnapshot store.balances account.id = none →
        (getCurrentBalance store account now).date = now) := by
  refine ⟨?_, ?_, ?_, ?_⟩
  · simp only [getCurrentBalance, foldl_applyTx, zero_add]
  · intro hne
    rcases heq : filteredBalTxs store account with _ | ⟨t, rest⟩
    · exact absurd heq hne
    · have htmem : t ∈ filteredBalTxs store account := by rw [heq]; exact List.mem_cons_self _ _
      have htmatch : txMatches account (balBaselineDate store account) t = true :=
        (List.mem_filter.mp htmem).2
      have htpos : 0 < t.date := by
        unfold txMatches at htmatch
        simp only [Bool.and_eq_true, decide_eq_true_eq] at htmatch
        omega
      simp only [getCurrentBalance, heq, foldl_latestDateStep_pos t rest htpos,
        Option.getD_some]
  · intro hemp b hb
    simp only [getCurrentBalance, hemp, hb, List.foldl_nil, Option.getD_none]
  · intro hemp hb
    simp only [getCurrentBalance, hemp, hb, List.foldl_nil, Option.getD_none]

/-- C2 counterexample: with no snapshot and no matching transactions (baseline
0 at the epoch), the returned as-of date is the current time (here 5), not the
epoch baseline date 0 that the claim requires. -/
theorem getCurrentBalance_date_counterexample :
    filteredBalTxs ⟨[], []⟩ ⟨1, 1, none⟩ = [] ∧
    balBaselineDate ⟨[], []⟩ ⟨1, 1, none⟩ = 0 ∧
    (getCurrentBalance ⟨[], []⟩ ⟨1, 1, none⟩ 5).date = 5 ∧
    (getCurrentBalance ⟨[], []⟩ ⟨1, 1, none⟩ 5).date ≠
      balBaselineDate ⟨[], []⟩ ⟨1, 1, none⟩ := by
  refine ⟨rfl, rfl, rfl, by decide⟩

/-- Witness for C2: baseline 100 at day 0, INCOME 50 on day 1 into the
account, EXPENSE 30 on day 2 from the account, yields 120 as of day 2. -/
theorem getCurrentBalance_spec_witness :
    (getCurrentBalance
        ⟨[⟨1, 1, 100, 0, 0⟩],
         [⟨some 1, none, 7, none, 50, 1, CType.INCOME⟩,
          ⟨some 1, none, 7, none, 30, 2, CType.EXPENSE⟩]⟩
        ⟨1, 7, none⟩ 99).amount = 120 ∧
    (getCurrentBalance
        ⟨[⟨1, 1, 100, 0, 0⟩],
         [⟨some 1, none, 7, none, 50, 1, CType.INCOME⟩,
          ⟨some 1, none, 7, none, 30, 2, CType.EXPENSE⟩]⟩
        ⟨1, 7, none⟩ 99).date = 2 := by
  have h := getCurrentBalance_spec
    ⟨[⟨1, 1, 100, 0, 0⟩],
     [⟨some 1, none, 7, none, 50, 1, CType.INCOME⟩,
      ⟨some 1, none, 7, none, 30, 2, CType.EXPENSE⟩]⟩
    ⟨1, 7, none⟩ 99
  refine ⟨?_, ?_⟩
  · rw [h.1]
    norm_num [balBaselineAmount, latestSnapshot, filteredBalTxs, balBaselineDate,
      txMatches, txDelta]
  · rw [h.2.1 (by decide)]; decide

/-- C7 (amended): `getCurrentBalance` is a pure function of the stored state
except for the call time: two calls on the same state return the same amount,
and fully identical results whenever a snapshot or a matching transaction
exists; with no snapshot and no matching transaction the amount is 0 and the
as-of date is each call's current time. -/
theorem getCurrentBalance_idempotent (store : BalanceStore) (account : BalAccount)
    (n1 n2 : Nat) :
    (getCurrentBalance store account n1).amount =
      (getCurrentBalance store account n2).amount ∧
    ((latestSnapshot store.balances account.id ≠ none ∨
        filteredBalTxs store account ≠ []) →
      getCurrentBalance store account n1 = getCurrentBalance store account n2) ∧
    (latestSnapshot store.balances account.id = none →
      filteredBalTxs store account = [] →
      (getCurrentBalance store account n1).amount = 0 ∧
      (getCurrentBalance store account n1).date = n1 ∧
      (getCurrentBalance store account n2).date = n2) := by
  refine ⟨rfl, ?_, ?_⟩
  · intro h
    rcases hsnap : latestSnapshot store.balances account.id with _ | b
    · rcases heq : filteredBalTxs store account with _ | ⟨t, rest⟩
      · rcases h with h | h
        · exact absurd hsnap h
        · exact absurd heq h
      · have htmem : t ∈ filteredBalTxs store account := by
          rw [heq]; exact List.mem_cons_self _ _
        have htmatch : txMatches account (balBaselineDate store account) t = true :=
          (List.mem_filter.mp htmem).2
        have htpos : 0 < t.date := by
          unfold txMatches at htmatch
          simp only [Bool.and_eq_true, decide_eq_true_eq] at htmatch
          omega
        simp only [getCurrentBalance, heq, hsnap,
          foldl_latestDateStep_pos t rest htpos, Option.getD_some]
    · simp only [getCurrentBalance, hsnap]
  · intro hsnap hemp
    constructor
    · simp only [getCurrentBalance, hemp, balBaselineAmount, hsnap, List.foldl_nil,
        add_zero]
    · constructor <;>
        simp only [getCurrentBalance, hemp, hsnap, List.foldl_nil, Option.getD_none]

/-- C7 counterexample: with no snapshot and no transactions, two consecutive
calls at times 1 and 2 return different as-of dates, so the results are not
identical. -/
theorem getCurrentBalance_idempotent_counterexample :
    (getCurrentBalance ⟨[], []⟩ ⟨2, 3, none⟩ 1).date = 1 ∧
    (getCurrentBalance ⟨[], []⟩ ⟨2, 3, none⟩ 2).date = 2 ∧
    getCurrentBalance ⟨[], []⟩ ⟨2, 3, none⟩ 1 ≠
      getCurrentBalance ⟨[], []⟩ ⟨2, 3, none⟩ 2 := by
  refine ⟨rfl, rfl, fun h => absurd (congrArg BalanceResult.date h) (by decide)⟩

/-- Witness for C7 on a store holding one snapshot: the two calls agree. -/
theorem getCurrentBalance_idempotent_witness :
    getCurrentBalance ⟨[⟨1, 4, 25, 3, 3⟩], []⟩ ⟨4, 8, none⟩ 5 =
      getCurrentBalance ⟨[⟨1, 4, 25, 3, 3⟩], []⟩ ⟨4, 8, none⟩ 9 :=
  (getCurrentBalance_idempotent ⟨[⟨1, 4, 25, 3, 3⟩], []⟩ ⟨4, 8, none⟩ 5 9).2.1
    (Or.inl (by decide))

/-! ## Transaction aggregator (`TransactionService.getAggregatedByYear`) -/

/-- The fields of an `Account` row kept in the aggregator's account map. -/
structure AggAccount where
  id : Int
  userId : Int
  groupId : Option Int
  type : AccountType
  subcategoryId : Option Int
  debitMethod : Option DebitMethod
  budgetMonthBasis : Option BudgetMonthBasis
  creditDueDay : Option Nat
  creditClosingDay : Option Nat
deriving DecidableEq, Repr

/-- A `Transaction` row as consulted by the aggregator.  The code only reads
calendar fields of the date (`getDate`, `getMonth`, `getFullYear`), so the
date is carried as a (year, month 1-12, day) triple. -/
structure AggTx where
  id : Int
  userId : Int
  groupId : Option Int
  subcategoryId : Option Int
  accountId : Option Int
  toAccountId : Option Int
  amount : ℚ
  year : Int
  month : Nat
  day : Nat
  type : CType
deriving DecidableEq, Repr

/-- One aggregation bucket (`acc[key]` in the source). -/
structure Bucket where
  subcategoryId : Int
  total : ℚ
  count : Nat
  month : Nat
  year : Int
  type : CType
deriving DecidableEq, Repr

/-- The components of the source's accumulator key
`subcategoryId-month-year-type`. -/
abbrev AggKey := Int × Nat × Int × CType

def keyOf (b : Bucket) : AggKey := (b.subcategoryId, b.month, b.year, b.type)

/-- `acc[key] = acc[key] ?? fresh; acc[key].total += amount; acc[key].count += 1`:
update the first bucket with the given key, or append a fresh one. -/
def addToAcc (acc : List Bucket) (s : Int) (m : Nat) (y : Int) (ty : CType) (a : ℚ) :
    List Bucket :=
  match acc with
  | [] => [⟨s, a, 1, m, y, ty⟩]
  | b :: rest =>
      if keyOf b = (s, m, y, ty) then
        { b with total := b.total + a, count := b.count + 1 } :: rest
      else b :: addToAcc rest s m y ty a

/-- `accountMap.get(id)`: accounts are keyed by their primary key, so the
first match is the entry. -/
def lookupAccount (accounts : List AggAccount) (id : Int) : Option AggAccount :=
  accounts.find? (fun a => a.id = id)

/-- The aggregator's skip rule: an EXPENSE whose (truthy) source account is
PREPAID, or CREDIT with debitMethod INVOICE. -/
def prepaidOrInvoiceSkip (accounts : List AggAccount) (t : AggTx) : Bool :=
  t.type = CType.EXPENSE &&
  (match truthyId t.accountId with
   | some aid =>
       match lookupAccount accounts aid with
       | some src =>
           src.type = AccountType.PREPAID ||
           (src.type = AccountType.CREDIT && src.debitMethod = some DebitMethod.INVOICE)
       | none => false
   | none => false)

/-- Target (month, year) of a non-transfer transaction: its own calendar
month/year, overridden by the billing attribution resolver for an EXPENSE
from a CREDIT / PER_PURCHASE / DUE_DATE account with truthy closing and due
days.  `t.month - 1` converts the stored 1-based month back to the JS
`getMonth()` index the resolver receives. -/
def dueDateTarget (accounts : List AggAccount) (t : AggTx) : Nat × Int :=
  let dflt := (t.month, t.year)
  if t.type = CType.EXPENSE then
    match truthyId t.accountId with
    | some aid =>
        match lookupAccount accounts aid with
        | some a =>
            if a.type = AccountType.CREDIT &&
               a.debitMethod = some DebitMethod.PER_PURCHASE &&
               a.budgetMonthBasis = some BudgetMonthBasis.DUE_DATE then
              match truthyNat a.creditClosingDay, truthyNat a.creditDueDay with
              | some closing, some due =>
                  let r := calculateDueDateMonth t.day (t.month - 1) t.year closing due
                  (r.month, r.year)
              | _, _ => dflt
            else dflt
        | none => dflt
    | none => dflt
  else dflt

/-- The aggregator's loop body for one transaction, mirroring the source:
non-transfers are skipped when prepaid/invoice-sourced or without a truthy
subcategory, else accumulated at their target month/year under their own
type; transfers are accumulated as EXPENSE against the destination account's
subcategory when the destination is PREPAID (and, by a second independent
branch, when it is CREDIT) with a truthy linked subcategory. -/
def processTx (accounts : List AggAccount) (acc : List Bucket) (t : AggTx) :
    List Bucket :=
  if t.type ≠ CType.TRANSFER then
    if prepaidOrInvoiceSkip accounts t then acc
    else
      match truthyId t.subcategoryId with
      | none => acc
      | some sub =>
          let tgt := dueDateTarget accounts t
          addToAcc acc sub tgt.1 tgt.2 t.type t.amount
  else
    match truthyId t.toAccountId with
    | none => acc
    | some toId =>
        match lookupAccount accounts toId with
        | none => acc
        | some dest =>
            let acc1 :=
              if dest.type = AccountType.PREPAID then
                match truthyId dest.subcategoryId with
                | some sub => addToAcc acc sub t.month t.year CType.EXPENSE t.amount
                | none => acc
              else acc
            if dest.type = AccountType.CREDIT then
              match truthyId dest.subcategoryId with
              | some sub => addToAcc acc1 sub t.month t.year CType.EXPENSE t.amount
              | none => acc1
            else acc1

/-- Strict lexicographic order on (year, month, day) dates. -/
def dateLtTuple (y1 : Int) (m1 d1 : Nat) (y2 : Int) (m2 d2 : Nat) : Bool :=
  y1 < y2 || (y1 = y2 && (m1 < m2 || (m1 = m2 && d1 < d2)))

/-- The aggregator's query window: November 1 of the previous year
(inclusive) to January 1 of the next year (exclusive). -/
def inAggWindow (year : Int) (t : AggTx) : Bool :=
  !(dateLtTuple t.year t.month t.day (year - 1) 11 1) &&
  dateLtTuple t.year t.month t.day (year + 1) 1 1

/-- Ownership scope of the transaction query: the given group, else the
user's personal (group-less) data. -/
def aggTxScope (userId : Int) (groupId : Option Int) (t : AggTx) : Bool :=
  match groupId with
  | some g => t.groupId = some g
  | none => t.userId = userId && t.groupId = none

/-- Ownership scope of the account query (same shape). -/
def aggAccScope (userId : Int) (groupId : Option Int) (a : AggAccount) : Bool :=
  match groupId with
  | some g => a.groupId = some g
  | none => a.userId = userId && a.groupId = none

/-- The stored state read by the aggregator. -/
structure AggStore where
  transactions : List AggTx
  accounts : List AggAccount
deriving DecidableEq, Repr

/-- `TransactionService.getAggregatedByYear`: filter transactions to the
window and scope, fold the loop body over them, and keep only buckets of the
requested year. -/
def getAggregatedByYear (store : AggStore) (userId : Int) (year : Int)
    (groupId : Option Int) : List Bucket :=
  let txs := store.transactions.filter (fun t => inAggWindow year t && aggTxScope userId groupId t)
  let accounts := store.accounts.filter (aggAccScope userId groupId)
  (txs.foldl (processTx accounts) []).filter (fun b => b.year = year)

/-- The single (key, amount) pair a transaction adds to the accumulator, if
any.  The two transfer branches of the loop are mutually exclusive (a
destination account has one type), so the loop body adds at most one entry. -/
def contribution (accounts : List AggAccount) (t : AggTx) : Option (AggKey × ℚ) :=
  if t.type ≠ CType.TRANSFER then
    if prepaidOrInvoiceSkip accounts t then none
    else
      match truthyId t.subcategoryId with
      | none => none
      | some sub =>
          let tgt := dueDateTarget accounts t
          some ((sub, tgt.1, tgt.2, t.type), t.amount)
  else
    match truthyId t.toAccountId with
    | none => none
    | some toId =>
        match lookupAccount accounts toId with
        | none => none
        | some dest =>
            if dest.type = AccountType.PREPAID ∨ dest.type = AccountType.CREDIT then
              match truthyId dest.subcategoryId with
              | some sub => some ((sub, t.month, t.year, CType.EXPENSE), t.amount)
              | none => none
            else none


theorem processTx_eq (accounts : List AggAccount) (acc : List Bucket) (t : AggTx) :
    processTx accounts acc t =
      match contribution accounts t with
      | none => acc
      | some (k, a) => addToAcc acc k.1 k.2.1 k.2.2.1 k.2.2.2 a := by
  unfold processTx contribution
  by_cases hT : t.type = CType.TRANSFER
  · simp only [hT, ne_eq, not_true_eq_false, if_false]
    rcases hto : truthyId t.toAccountId with _ | toId <;> simp only [hto]
    rcases hla : lookupAccount accounts toId with _ | dest <;> simp only [hla]
    rcases hdt : dest.type <;>
      rcases hsub : truthyId dest.subcategoryId with _ | sub <;>
        simp [hdt, hsub]
  · simp only [ne_eq, hT, not_false_eq_true, if_true]
    by_cases hskip : prepaidOrInvoiceSkip accounts t
    · simp [hskip]
    · simp only [hskip, if_false]
      rcases hsub : truthyId t.subcategoryId with _ | sub <;> simp [hsub]

/-- First bucket with a given key (the accumulator record lookup). -/
def findBucket : List Bucket → AggKey → Option Bucket
  | [], _ => none
  | b :: rest, k => if keyOf b = k then some b else findBucket rest k

/-- Total of the bucket with key `k` (0 when absent). -/
def totalIn (acc : List Bucket) (k : AggKey) : ℚ :=
  match findBucket acc k with
  | some b => b.total
  | none => 0

/-- Count of the bucket with key `k` (0 when absent). -/
def countIn (acc : List Bucket) (k : AggKey) : Nat :=
  match findBucket acc k with
  | some b => b.count
  | none => 0

def hasKey (acc : List Bucket) (k : AggKey) : Bool := (findBucket acc k).isSome

theorem keyOf_patch (b : Bucket) (a : ℚ) :
    keyOf { b with total := b.total + a, count := b.count + 1 } = keyOf b := rfl

theorem findBucket_addToAcc (acc : List Bucket) (s : Int) (m : Nat) (y : Int)
    (ty : CType) (a : ℚ) (k : AggKey) :
    findBucket (addToAcc acc s m y ty a) k =
      if k = (s, m, y, ty) then
        match findBucket acc k with
        | some b => some { b with total := b.total + a, count := b.count + 1 }
        | none => some ⟨s, a, 1, m, y, ty⟩
      else findBucket acc k := by
  induction acc with
  | nil =>
      by_cases hk : k = (s, m, y, ty)
      · simp [addToAcc, findBucket, keyOf, hk]
      · have hks : ¬((s, m, y, ty) : AggKey) = k := fun h => hk h.symm
        simp [addToAcc, findBucket, keyOf, hk, hks]
  | cons b rest ih =>
      by_cases hb : keyOf b = (s, m, y, ty)
      · by_cases hk : k = (s, m, y, ty)
        · subst hk
          simp [addToAcc, hb, findBucket, keyOf_patch]
        · have hbk : ¬keyOf b = k := by rw [hb]; exact fun h => hk h.symm
          have hks : ¬((s, m, y, ty) : AggKey) = k := fun h => hk h.symm
          simp [addToAcc, hb, findBucket, keyOf_patch, hbk, hk, hks]
      · by_cases hk : k = (s, m, y, ty)
        · subst hk
          have hbk : ¬keyOf b = ((s, m, y, ty) : AggKey) := hb
          simp only [addToAcc, hb, if_false, findBucket, hbk]
          simpa using ih
        · by_cases hbk : keyOf b = k
          · simp [addToAcc, hb, findBucket, hbk, hk]
          · simp [addToAcc, hb, findBucket, hbk, hk, ih]

theorem totalIn_addToAcc (acc : List Bucket) (s : Int) (m : Nat) (y : Int)
    (ty : CType) (a : ℚ) (k : AggKey) :
    totalIn (addToAcc acc s m y ty a) k =
      if k = (s, m, y, ty) then totalIn acc k + a else totalIn acc k := by
  unfold totalIn
  rw [findBucket_addToAcc]
  by_cases hk : k = (s, m, y, ty)
  · simp only [hk, if_pos]
    rcases findBucket acc (s, m, y, ty) with _ | b <;> simp
  · simp [hk]

theorem countIn_addToAcc (acc : List Bucket) (s : Int) (m : Nat) (y : Int)
    (ty : CType) (a : ℚ) (k : AggKey) :
    countIn (addToAcc acc s m y ty a) k =
      if k = (s, m, y, ty) then countIn acc k + 1 else countIn acc k := by
  unfold countIn
  rw [findBucket_addToAcc]
  by_cases hk : k = (s, m, y, ty)
  · simp only [hk, if_pos]
    rcases findBucket acc (s, m, y, ty) with _ | b <;> simp
  · simp [hk]

theorem hasKey_addToAcc (acc : List Bucket) (s : Int) (m : Nat) (y : Int)
    (ty : CType) (a : ℚ) (k : AggKey) :
    hasKey (addToAcc acc s m y ty a) k = true ↔
      k = (s, m, y, ty) ∨ hasKey acc k = true := by
  unfold hasKey
  rw [findBucket_addToAcc]
  by_cases hk : k = (s, m, y, ty)
  · simp only [hk, if_pos]
    rcases findBucket acc (s, m, y, ty) with _ | b <;> simp
  · simp [hk]

/-- Amount a transaction contributes at key `k`. -/
def contribAt (accounts : List AggAccount) (t : AggTx) (k : AggKey) : ℚ :=
  match contribution accounts t with
  | some (k2, a) => if k2 = k then a else 0
  | none => 0

/-- 1 when the transaction contributes at key `k`, else 0. -/
def contribCountAt (accounts : List AggAccount) (t : AggTx) (k : AggKey) : Nat :=
  match contribution accounts t with
  | some (k2, _) => if k2 = k then 1 else 0
  | none => 0

/-- The key a transaction contributes to, if any. -/
def contribKey (accounts : List AggAccount) (t : AggTx) : Option AggKey :=
  match contribution accounts t with
  | some (k, _) => some k
  | none => none

theorem totalIn_foldl (accounts : List AggAccount) (txs : List AggTx) :
    ∀ (acc : List Bucket) (k : AggKey),
    totalIn (txs.foldl (processTx accounts) acc) k =
      totalIn acc k + (txs.map (fun t => contribAt accounts t k)).sum := by
  induction txs with
  | nil => intro acc k; simp
  | cons t rest ih =>
      intro acc k
      simp only [List.foldl_cons, List.map_cons, List.sum_cons]
      rw [ih, processTx_eq]
      rcases hc : contribution accounts t with _ | ⟨⟨s2, m2, y2, ty2⟩, a⟩
      · simp [contribAt, hc]
      · simp only [contribAt, hc]
        rw [totalIn_addToAcc]
        by_cases hk : ((s2, m2, y2, ty2) : AggKey) = k
        · rw [if_pos hk.symm, if_pos hk]; ring
        · rw [if_neg (fun h => hk h.symm), if_neg hk]; ring

theorem countIn_foldl (accounts : List AggAccount) (txs : List AggTx) :
    ∀ (acc : List Bucket) (k : AggKey),
    countIn (txs.foldl (processTx accounts) acc) k =
      countIn acc k + (txs.map (fun t => contribCountAt accounts t k)).sum := by
  induction txs with
  | nil => intro acc k; simp
  | cons t rest ih =>
      intro acc k
      simp only [List.foldl_cons, List.map_cons, List.sum_cons]
      rw [ih, processTx_eq]
      rcases hc : contribution accounts t with _ | ⟨⟨s2, m2, y2, ty2⟩, a⟩
      · simp [contribCountAt, hc]
      · simp only [contribCountAt, hc]
        rw [countIn_addToAcc]
        by_cases hk : ((s2, m2, y2, ty2) : AggKey) = k
        · rw [if_pos hk.symm, if_pos hk]; ring
        · rw [if_neg (fun h => hk h.symm), if_neg hk]; ring

theorem hasKey_foldl (accounts : List AggAccount) (txs : List AggTx) :
    ∀ (acc : List Bucket) (k : AggKey),
    hasKey (txs.foldl (processTx accounts) acc) k = true ↔
      hasKey acc k = true ∨ ∃ t ∈ txs, contribKey accounts t = some k := by
  induction txs with
  | nil => intro acc k; simp
  | cons t rest ih =>
      intro acc k
      simp only [List.foldl_cons]
      rw [ih, processTx_eq]
      rcases hc : contribution accounts t with _ | ⟨⟨s2, m2, y2, ty2⟩, a⟩
      · simp only [contribKey, hc, List.mem_cons]
        constructor
        · rintro (h | ⟨t2, ht2, hk2⟩)
          · exact Or.inl h
          · exact Or.inr ⟨t2, Or.inr ht2, hk2⟩
        · rintro (h | ⟨t2, rfl | ht2, hk2⟩)
          · exact Or.inl h
          · simp [contribKey, hc] at hk2
          · exact Or.inr ⟨t2, ht2, hk2⟩
      · rw [hasKey_addToAcc]
        simp only [contribKey, hc, List.mem_cons]
        constructor
        · rintro ((h | h) | ⟨t2, ht2, hk2⟩)
          · exact Or.inr ⟨t, Or.inl rfl, by simp [contribKey, hc, h]⟩
          · exact Or.inl h
          · exact Or.inr ⟨t2, Or.inr ht2, hk2⟩
        · rintro (h | ⟨t2, rfl | ht2, hk2⟩)
          · exact Or.inl (Or.inr h)
          · simp only [contribKey, hc, Option.some.injEq] at hk2
            exact Or.inl (Or.inl hk2.symm)
          · exact Or.inr ⟨t2, ht2, hk2⟩

theorem mem_keys_addToAcc (acc : List Bucket) (s : Int) (m : Nat) (y : Int)
    (ty : CType) (a : ℚ) (k2 : AggKey) :
    k2 ∈ (addToAcc acc s m y ty a).map keyOf ↔
      k2 ∈ acc.map keyOf ∨ k2 = (s, m, y, ty) := by
  induction acc with
  | nil => simp [addToAcc, keyOf]
  | cons b rest ih =>
      by_cases hb : keyOf b = (s, m, y, ty)
      · simp only [addToAcc, hb, if_pos, List.map_cons, List.mem_cons, keyOf_patch]
        tauto
      · simp only [addToAcc, hb, if_false, List.map_cons, List.mem_cons, ih]
        tauto

theorem nodup_keys_addToAcc (acc : List Bucket) (s : Int) (m : Nat) (y : Int)
    (ty : CType) (a : ℚ) (h : (acc.map keyOf).Nodup) :
    ((addToAcc acc s m y ty a).map keyOf).Nodup := by
  induction acc with
  | nil => simp [addToAcc, keyOf]
  | cons b rest ih =>
      rw [List.map_cons, List.nodup_cons] at h
      by_cases hb : keyOf b = (s, m, y, ty)
      · simp only [addToAcc, hb, if_pos, List.map_cons, keyOf_patch, List.nodup_cons]
        exact ⟨hb ▸ h.1, h.2⟩
      · simp only [addToAcc, hb, if_false, List.map_cons, List.nodup_cons]
        refine ⟨?_, ih h.2⟩
        rw [mem_keys_addToAcc]
        rintro (hmem | hmem)
        · exact h.1 hmem
        · exact hb hmem

theorem nodup_keys_foldl (accounts : List AggAccount) (txs : List AggTx) :
    ∀ acc : List Bucket, (acc.map keyOf).Nodup →
      (((txs.foldl (processTx accounts) acc)).map keyOf).Nodup := by
  induction txs with
  | nil => intro acc h; exact h
  | cons t rest ih =>
      intro acc h
      simp only [List.foldl_cons]
      refine ih _ ?_
      rw [processTx_eq]
      rcases hc : contribution accounts t with _ | ⟨⟨s2, m2, y2, ty2⟩, a⟩
      · exact h
      · exact nodup_keys_addToAcc _ _ _ _ _ _ h

theorem findBucket_filter_year (l : List Bucket) (k : AggKey) (year : Int)
    (hk : k.2.2.1 = year) :
    findBucket (l.filter (fun b => b.year = year)) k = findBucket l k := by
  induction l with
  | nil => rfl
  | cons b rest ih =>
      by_cases hbk : keyOf b = k
      · have hby : b.year = year := by
          have h2 := congrArg (fun x : AggKey => x.2.2.1) hbk
          simpa [keyOf, hk] using h2
        simp [List.filter_cons, hby, findBucket, hbk]
      · by_cases hby : b.year = year
        · simp [List.filter_cons, hby, findBucket, hbk, ih]
        · simp [List.filter_cons, hby, findBucket, hbk, ih]

theorem findBucket_filter_year_ne (l : List Bucket) (k : AggKey) (year : Int)
    (hk : k.2.2.1 ≠ year) :
    findBucket (l.filter (fun b => b.year = year)) k = none := by
  induction l with
  | nil => rfl
  | cons b rest ih =>
      by_cases hby : b.year = year
      · have hbk : keyOf b ≠ k := by
          intro he
          apply hk
          have h2 := congrArg (fun x : AggKey => x.2.2.1) he
          simpa [keyOf, hby] using h2.symm
        simp [List.filter_cons, hby, findBucket, hbk, ih]
      · simp [List.filter_cons, hby, findBucket, ih]

theorem findBucket_eq_of_mem (l : List Bucket) (b : Bucket)
    (hnd : (l.map keyOf).Nodup) (hb : b ∈ l) :
    findBucket l (keyOf b) = some b := by
  induction l with
  | nil => cases hb
  | cons c rest ih =>
      rw [List.map_cons, List.nodup_cons] at hnd
      rcases List.mem_cons.mp hb with rfl | hb2
      · simp [findBucket]
      · have hc : keyOf c ≠ keyOf b := by
          intro he
          exact hnd.1 (he ▸ List.mem_map_of_mem keyOf hb2)
        simp only [findBucket, hc, if_false]
        exact ih hnd.2 hb2

/-- The scoped, windowed transaction list the aggregator folds over. -/
def aggTxs (store : AggStore) (userId : Int) (year : Int) (groupId : Option Int) :
    List AggTx :=
  store.transactions.filter (fun t => inAggWindow year t && aggTxScope userId groupId t)

/-- The scoped account list that populates the aggregator's account map. -/
def aggAccounts (store : AggStore) (userId : Int) (groupId : Option Int) :
    List AggAccount :=
  store.accounts.filter (aggAccScope userId groupId)

theorem getAggregatedByYear_eq (store : AggStore) (userId : Int) (year : Int)
    (groupId : Option Int) :
    getAggregatedByYear store userId year groupId =
      ((aggTxs store userId year groupId).foldl
        (processTx (aggAccounts store userId groupId)) []).filter
          (fun b => b.year = year) := rfl

theorem totalIn_agg (store : AggStore) (userId : Int) (year : Int)
    (groupId : Option Int) (k : AggKey) (hk : k.2.2.1 = year) :
    totalIn (getAggregatedByYear store userId year groupId) k =
      ((aggTxs store userId year groupId).map
        (fun t => contribAt (aggAccounts store userId groupId) t k)).sum := by
  unfold totalIn
  rw [getAggregatedByYear_eq, findBucket_filter_year _ _ _ hk]
  have h := totalIn_foldl (aggAccounts store userId groupId)
    (aggTxs store userId year groupId) [] k
  unfold totalIn at h
  simpa [findBucket] using h

theorem countIn_agg (store : AggStore) (userId : Int) (year : Int)
    (groupId : Option Int) (k : AggKey) (hk : k.2.2.1 = year) :
    countIn (getAggregatedByYear store userId year groupId) k =
      ((aggTxs store userId year groupId).map
        (fun t => contribCountAt (aggAccounts store userId groupId) t k)).sum := by
  unfold countIn
  rw [getAggregatedByYear_eq, findBucket_filter_year _ _ _ hk]
  have h := countIn_foldl (aggAccounts store userId groupId)
    (aggTxs store userId year groupId) [] k
  unfold countIn at h
  simpa [findBucket] using h

theorem hasKey_agg (store : AggStore) (userId : Int) (year : Int)
    (groupId : Option Int) (k : AggKey) (hk : k.2.2.1 = year) :
    hasKey (getAggregatedByYear store userId year groupId) k = true ↔
      ∃ t ∈ aggTxs store userId year groupId,
        contribKey (aggAccounts store userId groupId) t = some k := by
  unfold hasKey
  rw [getAggregatedByYear_eq, findBucket_filter_year _ _ _ hk]
  have h := hasKey_foldl (aggAccounts store userId groupId)
    (aggTxs store userId year groupId) [] k
  unfold hasKey at h
  simpa [findBucket] using h

theorem nodup_keys_agg (store : AggStore) (userId : Int) (year : Int)
    (groupId : Option Int) :
    ((getAggregatedByYear store userId year groupId).map keyOf).Nodup := by
  rw [getAggregatedByYear_eq]
  exact ((List.filter_sublist _).map keyOf).nodup
    (nodup_keys_foldl _ _ [] (by simp))

theorem year_of_mem_agg (store : AggStore) (userId : Int) (year : Int)
    (groupId : Option Int) (b : Bucket)
    (hb : b ∈ getAggregatedByYear store userId year groupId) : b.year = year := by
  rw [getAggregatedByYear_eq] at hb
  simpa using (List.mem_filter.mp hb).2

theorem inAggWindow_of_year (year : Int) (t : AggTx) (h : t.year = year) :
    inAggWindow year t = true := by
  simp only [inAggWindow, dateLtTuple, h, Bool.and_eq_true, Bool.not_eq_true',
    Bool.or_eq_true, decide_eq_true_eq, Bool.or_eq_false_iff,
    Bool.and_eq_false_iff, decide_eq_false_iff_not]
  omega

theorem mem_of_findBucket (l : List Bucket) (k : AggKey) (b : Bucket)
    (h : findBucket l k = some b) : b ∈ l ∧ keyOf b = k := by
  induction l with
  | nil => cases h
  | cons c rest ih =>
      by_cases hc : keyOf c = k
      · simp only [findBucket, hc, if_pos, Option.some.injEq] at h
        subst h
        exact ⟨List.mem_cons_self _ _, hc⟩
      · simp only [findBucket, hc, if_false] at h
        obtain ⟨hmem, hkey⟩ := ih h
        exact ⟨List.mem_cons_of_mem _ hmem, hkey⟩

theorem sum_map_ite_filter {α : Type} (l : List α) (p : α → Bool) (f : α → ℚ) :
    (l.map (fun x => if p x = true then f x else 0)).sum =
      ((l.filter p).map f).sum := by
  induction l with
  | nil => rfl
  | cons x rest ih =>
      by_cases hx : p x = true <;> simp [List.filter_cons, hx, ih]

theorem sum_map_ite_length {α : Type} (l : List α) (p : α → Bool) :
    (l.map (fun x => if p x = true then (1 : Nat) else 0)).sum =
      (l.filter p).length := by
  induction l with
  | nil => rfl
  | cons x rest ih =>
      by_cases hx : p x = true <;> simp [List.filter_cons, hx, ih] <;> omega

theorem truthyId_some (o : Option Int) (s : Int) (h : truthyId o = some s) :
    o = some s ∧ s ≠ 0 := by
  rcases o with _ | v
  · cases h
  · simp only [truthyId] at h
    by_cases hv : v = 0
    · rw [if_pos hv] at h; cases h
    · rw [if_neg hv] at h
      cases h
      exact ⟨rfl, hv⟩

/-- For a non-transfer transaction whose (truthy) source account, if any, is a
plain CASH account, the aggregator contributes the transaction's own amount
under its own subcategory, calendar month/year and type. -/
theorem contribution_plain (accounts : List AggAccount) (t : AggTx) (s : Int)
    (hT : t.type ≠ CType.TRANSFER)
    (hs : truthyId t.subcategoryId = some s)
    (hcash : ∀ aid src, truthyId t.accountId = some aid →
      lookupAccount accounts aid = some src → src.type = AccountType.CASH) :
    contribution accounts t = some ((s, t.month, t.year, t.type), t.amount) := by
  have hskip : prepaidOrInvoiceSkip accounts t = false := by
    unfold prepaidOrInvoiceSkip
    rcases hta : truthyId t.accountId with _ | aid
    · simp [hta]
    · rcases hla : lookupAccount accounts aid with _ | src
      · simp [hta, hla]
      · have hc := hcash aid src hta hla
        simp [hta, hla, hc]
  have htgt : dueDateTarget accounts t = (t.month, t.year) := by
    unfold dueDateTarget
    by_cases hE : t.type = CType.EXPENSE
    · rcases hta : truthyId t.accountId with _ | aid
      · simp [hE, hta]
      · rcases hla : lookupAccount accounts aid with _ | src
        · simp [hE, hta, hla]
        · have hc := hcash aid src hta hla
          simp [hE, hta, hla, hc]
    · simp [hE]
  unfold contribution
  simp [hT, hskip, hs, htgt]

/-- The (key, amount) pair contributed by a transfer into a PREPAID
destination account with a truthy linked subcategory. -/
theorem contribution_prepaid_transfer (accounts : List AggAccount) (t : AggTx)
    (toId : Int) (dest : AggAccount) (sub : Int)
    (hT : t.type = CType.TRANSFER)
    (hto : truthyId t.toAccountId = some toId)
    (hla : lookupAccount accounts toId = some dest)
    (hdt : dest.type = AccountType.PREPAID)
    (hsub : truthyId dest.subcategoryId = some sub) :
    contribution accounts t = some ((sub, t.month, t.year, CType.EXPENSE), t.amount) := by
  unfold contribution
  simp [hT, hto, hla, hdt, hsub]

theorem foldl_processTx_skip (accounts : List AggAccount) (l1 l2 : List AggTx)
    (t : AggTx) (acc : List Bucket) (hc : contribution accounts t = none) :
    (l1 ++ t :: l2).foldl (processTx accounts) acc =
      (l1 ++ l2).foldl (processTx accounts) acc := by
  rw [List.foldl_append, List.foldl_append, List.foldl_cons, processTx_eq, hc]

/-- C3: in `getAggregatedByYear`, an EXPENSE sourced from a PREPAID account,
or from a CREDIT account with debitMethod INVOICE, contributes to no output
bucket (removing it leaves the output unchanged); and a TRANSFER whose
destination account is PREPAID with a truthy linked subcategory, in scope and
dated in the requested year, changes exactly the EXPENSE bucket keyed by that
subcategory and the transfer's own calendar month and year — adding its
amount once and its count once — and leaves every other bucket untouched, so
the same economic outflow is never counted twice. -/
theorem aggregation_no_double_count (txs1 txs2 : List AggTx)
    (accountRows : List AggAccount) (t : AggTx) (userId year : Int)
    (groupId : Option Int) :
    ((t.type = CType.EXPENSE ∧
      ∃ aid src, truthyId t.accountId = some aid ∧
        lookupAccount (accountRows.filter (aggAccScope userId groupId)) aid = some src ∧
        (src.type = AccountType.PREPAID ∨
          (src.type = AccountType.CREDIT ∧
            src.debitMethod = some DebitMethod.INVOICE))) →
      getAggregatedByYear ⟨txs1 ++ t :: txs2, accountRows⟩ userId year groupId =
        getAggregatedByYear ⟨txs1 ++ txs2, accountRows⟩ userId year groupId) ∧
    (∀ toId dest sub,
      t.type = CType.TRANSFER →
      truthyId t.toAccountId = some toId →
      lookupAccount (accountRows.filter (aggAccScope userId groupId)) toId = some dest →
      dest.type = AccountType.PREPAID →
      truthyId dest.subcategoryId = some sub →
      aggTxScope userId groupId t = true →
      t.year = year →
      ∀ k : AggKey,
        totalIn (getAggregatedByYear ⟨txs1 ++ t :: txs2, accountRows⟩ userId year groupId) k =
          totalIn (getAggregatedByYear ⟨txs1 ++ txs2, accountRows⟩ userId year groupId) k +
            (if k = (sub, t.month, year, CType.EXPENSE) then t.amount else 0) ∧
        countIn (getAggregatedByYear ⟨txs1 ++ t :: txs2, accountRows⟩ userId year groupId) k =
          countIn (getAggregatedByYear ⟨txs1 ++ txs2, accountRows⟩ userId year groupId) k +
            (if k = (sub, t.month, year, CType.EXPENSE) then 1 else 0)) := by
  constructor
  · rintro ⟨hE, aid, src, hta, hla, hsrc⟩
    have hc : contribution (accountRows.filter (aggAccScope userId groupId)) t = none := by
      have hskip : prepaidOrInvoiceSkip (accountRows.filter (aggAccScope userId groupId)) t = true := by
        unfold prepaidOrInvoiceSkip
        rcases hsrc with h1 | ⟨h1, h2⟩
        · simp [hE, hta, hla, h1]
        · simp [hE, hta, hla, h1, h2]
      unfold contribution
      simp [hE, hskip]
    rw [getAggregatedByYear_eq, getAggregatedByYear_eq]
    congr 1
    have h1 : aggTxs ⟨txs1 ++ t :: txs2, accountRows⟩ userId year groupId =
        txs1.filter (fun x => inAggWindow year x && aggTxScope userId groupId x) ++
          (t :: txs2).filter (fun x => inAggWindow year x && aggTxScope userId groupId x) := by
      unfold aggTxs
      exact List.filter_append _ _
    have h2 : aggTxs ⟨txs1 ++ txs2, accountRows⟩ userId year groupId =
        txs1.filter (fun x => inAggWindow year x && aggTxScope userId groupId x) ++
          txs2.filter (fun x => inAggWindow year x && aggTxScope userId groupId x) := by
      unfold aggTxs
      exact List.filter_append _ _
    have hacc : aggAccounts ⟨txs1 ++ t :: txs2, accountRows⟩ userId groupId =
        accountRows.filter (aggAccScope userId groupId) := rfl
    have hacc2 : aggAccounts ⟨txs1 ++ txs2, accountRows⟩ userId groupId =
        accountRows.filter (aggAccScope userId groupId) := rfl
    rw [h1, h2, hacc, hacc2]
    by_cases hpt : (inAggWindow year t && aggTxScope userId groupId t) = true
    · rw [List.filter_cons, if_pos hpt]
      exact foldl_processTx_skip _ _ _ _ _ hc
    · rw [List.filter_cons, if_neg hpt]
  · intro toId dest sub hT hto hla hdt hsub hscope hyear k
    subst hyear
    have hc : contribution (accountRows.filter (aggAccScope userId groupId)) t =
        some ((sub, t.month, t.year, CType.EXPENSE), t.amount) :=
      contribution_prepaid_transfer _ _ _ _ _ hT hto hla hdt hsub
    have hpt : (inAggWindow t.year t && aggTxScope userId groupId t) = true := by
      rw [inAggWindow_of_year t.year t rfl, hscope]
      rfl
    have h1 : aggTxs ⟨txs1 ++ t :: txs2, accountRows⟩ userId t.year groupId =
        txs1.filter (fun x => inAggWindow t.year x && aggTxScope userId groupId x) ++
          t :: txs2.filter (fun x => inAggWindow t.year x && aggTxScope userId groupId x) := by
      unfold aggTxs
      rw [List.filter_append, List.filter_cons, if_pos hpt]
    have h2 : aggTxs ⟨txs1 ++ txs2, accountRows⟩ userId t.year groupId =
        txs1.filter (fun x => inAggWindow t.year x && aggTxScope userId groupId x) ++
          txs2.filter (fun x => inAggWindow t.year x && aggTxScope userId groupId x) := by
      unfold aggTxs
      rw [List.filter_append]
    have hacc : aggAccounts ⟨txs1 ++ t :: txs2, accountRows⟩ userId groupId =
        accountRows.filter (aggAccScope userId groupId) := rfl
    have hacc2 : aggAccounts ⟨txs1 ++ txs2, accountRows⟩ userId groupId =
        accountRows.filter (aggAccScope userId groupId) := rfl
    by_cases hk : k.2.2.1 = t.year
    · have hct : contribAt (accountRows.filter (aggAccScope userId groupId)) t k =
          if (sub, t.month, t.year, CType.EXPENSE) = k then t.amount else 0 := by
        simp [contribAt, hc]
      have hcct : contribCountAt (accountRows.filter (aggAccScope userId groupId)) t k =
          if (sub, t.month, t.year, CType.EXPENSE) = k then 1 else 0 := by
        simp [contribCountAt, hc]
      constructor
      · rw [totalIn_agg _ _ _ _ _ hk, totalIn_agg _ _ _ _ _ hk, h1, h2, hacc, hacc2]
        simp only [List.map_append, List.sum_append, List.map_cons, List.sum_cons, hct]
        by_cases he : ((sub, t.month, t.year, CType.EXPENSE) : AggKey) = k
        · rw [if_pos he, if_pos he.symm]; ring
        · rw [if_neg he, if_neg (fun h => he h.symm)]; ring
      · rw [countIn_agg _ _ _ _ _ hk, countIn_agg _ _ _ _ _ hk, h1, h2, hacc, hacc2]
        simp only [List.map_append, List.sum_append, List.map_cons, List.sum_cons, hcct]
        by_cases he : ((sub, t.month, t.year, CType.EXPENSE) : AggKey) = k
        · rw [if_pos he, if_pos he.symm]; ring
        · rw [if_neg he, if_neg (fun h => he h.symm)]; ring
    · have hne : k ≠ (sub, t.month, t.year, CType.EXPENSE) := by
        intro he
        exact hk (by rw [he])
      have hz1 : totalIn (getAggregatedByYear ⟨txs1 ++ t :: txs2, accountRows⟩ userId t.year groupId) k = 0 := by
        unfold totalIn
        rw [getAggregatedByYear_eq, findBucket_filter_year_ne _ _ _ hk]
      have hz2 : totalIn (getAggregatedByYear ⟨txs1 ++ txs2, accountRows⟩ userId t.year groupId) k = 0 := by
        unfold totalIn
        rw [getAggregatedByYear_eq, findBucket_filter_year_ne _ _ _ hk]
      have hz3 : countIn (getAggregatedByYear ⟨txs1 ++ t :: txs2, accountRows⟩ userId t.year groupId) k = 0 := by
        unfold countIn
        rw [getAggregatedByYear_eq, findBucket_filter_year_ne _ _ _ hk]
      have hz4 : countIn (getAggregatedByYear ⟨txs1 ++ txs2, accountRows⟩ userId t.year groupId) k = 0 := by
        unfold countIn
        rw [getAggregatedByYear_eq, findBucket_filter_year_ne _ _ _ hk]
      rw [hz1, hz2, hz3, hz4, if_neg hne, if_neg hne]
      exact ⟨by ring, by ring⟩

/-- The transaction's (truthy) source account, when it resolves in the
account map, is a plain CASH account: no prepaid/invoice skip and no
due-date redirection applies. -/
def plainCashSource (accounts : List AggAccount) (t : AggTx) : Bool :=
  match truthyId t.accountId with
  | some aid =>
      match lookupAccount accounts aid with
      | some src => src.type = AccountType.CASH
      | none => true
  | none => true

theorem cash_of_plain (accounts : List AggAccount) (t : AggTx)
    (h : plainCashSource accounts t = true) :
    ∀ aid src, truthyId t.accountId = some aid →
      lookupAccount accounts aid = some src → src.type = AccountType.CASH := by
  intro aid src hta hla
  unfold plainCashSource at h
  simp only [hta, hla, decide_eq_true_eq] at h
  exact h

theorem sum_map_congr {α : Type} (l : List α) (f g : α → ℚ)
    (h : ∀ a ∈ l, f a = g a) : (l.map f).sum = (l.map g).sum := by
  induction l with
  | nil => rfl
  | cons x rest ih =>
      simp only [List.map_cons, List.sum_cons]
      rw [h x (List.mem_cons_self _ _), ih (fun a ha => h a (List.mem_cons_of_mem _ ha))]

theorem sum_map_congr_nat {α : Type} (l : List α) (f g : α → Nat)
    (h : ∀ a ∈ l, f a = g a) : (l.map f).sum = (l.map g).sum := by
  induction l with
  | nil => rfl
  | cons x rest ih =>
      simp only [List.map_cons, List.sum_cons]
      rw [h x (List.mem_cons_self _ _), ih (fun a ha => h a (List.mem_cons_of_mem _ ha))]

theorem key_eq_iff (t : AggTx) (b : Bucket) (s : Int) (year : Int)
    (hts : t.subcategoryId = some s) (hby : b.year = year) :
    (((s, t.month, year, t.type) : AggKey) = keyOf b) ↔
      (t.subcategoryId = some b.subcategoryId && t.month = b.month &&
        t.type = b.type) = true := by
  simp only [keyOf, Prod.mk.injEq, Bool.and_eq_true, decide_eq_true_eq, hts,
    Option.some.injEq, hby]
  tauto

/-- C4: with only non-transfer personal transactions of the requested year,
all with truthy subcategories and plain CASH (or no) source accounts, the
aggregation has pairwise distinct bucket keys, every bucket carries the
requested year and the exact sum and count of the transactions with its
(subcategory, month, type) combination, and every such combination present
among the transactions has a bucket. -/
theorem aggregation_completeness (store : AggStore) (userId : Int) (year : Int)
    (htx : ∀ t ∈ store.transactions,
      t.userId = userId ∧ t.groupId = none ∧ t.year = year ∧
      t.type ≠ CType.TRANSFER ∧ truthyId t.subcategoryId ≠ none ∧
      plainCashSource (store.accounts.filter (aggAccScope userId none)) t = true) :
    ((getAggregatedByYear store userId year none).map keyOf).Nodup ∧
    (∀ b ∈ getAggregatedByYear store userId year none,
      b.year = year ∧
      b.total = ((store.transactions.filter (fun t =>
          t.subcategoryId = some b.subcategoryId && t.month = b.month &&
            t.type = b.type)).map (fun t => t.amount)).sum ∧
      b.count = (store.transactions.filter (fun t =>
          t.subcategoryId = some b.subcategoryId && t.month = b.month &&
            t.type = b.type)).length) ∧
    (∀ t ∈ store.transactions, ∀ s, truthyId t.subcategoryId = some s →
      ∃ b ∈ getAggregatedByYear store userId year none,
        keyOf b = (s, t.month, year, t.type)) := by
  have hlist : aggTxs store userId year none = store.transactions := by
    unfold aggTxs
    apply List.filter_eq_self.mpr
    intro t ht
    obtain ⟨hu, hg, hy, _, _, _⟩ := htx t ht
    rw [inAggWindow_of_year year t hy]
    simp [aggTxScope, hu, hg]
  have haccs : aggAccounts store userId none =
      store.accounts.filter (aggAccScope userId none) := rfl
  have hcontr : ∀ t ∈ store.transactions, ∀ s, truthyId t.subcategoryId = some s →
      contribution (aggAccounts store userId none) t =
        some ((s, t.month, year, t.type), t.amount) := by
    intro t ht s hst
    obtain ⟨hu, hg, hy, hT, hsub, hplain⟩ := htx t ht
    have hres := contribution_plain (aggAccounts store userId none) t s hT hst
      (by rw [haccs]; exact cash_of_plain _ _ hplain)
    rw [hy] at hres
    exact hres
  refine ⟨nodup_keys_agg store userId year none, ?_, ?_⟩
  · intro b hb
    have hby : b.year = year := year_of_mem_agg store userId year none b hb
    have hnd := nodup_keys_agg store userId year none
    have hfb : findBucket (getAggregatedByYear store userId year none) (keyOf b) =
        some b := findBucket_eq_of_mem _ _ hnd hb
    have hkcomp : ((keyOf b).2.2.1) = year := hby
    have hmapT : ∀ t ∈ store.transactions,
        contribAt (aggAccounts store userId none) t (keyOf b) =
          (fun t : AggTx => if (t.subcategoryId = some b.subcategoryId &&
            t.month = b.month && t.type = b.type) = true then t.amount else 0) t := by
      intro t ht
      obtain ⟨hu, hg, hy, hT, hsub, hplain⟩ := htx t ht
      rcases hst : truthyId t.subcategoryId with _ | s
      · exact absurd hst hsub
      · have hc := hcontr t ht s hst
        obtain ⟨hts, hs0⟩ := truthyId_some _ _ hst
        simp only [contribAt, hc]
        by_cases he : ((s, t.month, year, t.type) : AggKey) = keyOf b
        · rw [if_pos he, if_pos ((key_eq_iff t b s year hts hby).mp he)]
        · rw [if_neg he, if_neg (fun hp => he ((key_eq_iff t b s year hts hby).mpr hp))]
    have hmapC : ∀ t ∈ store.transactions,
        contribCountAt (aggAccounts store userId none) t (keyOf b) =
          (fun t : AggTx => if (t.subcategoryId = some b.subcategoryId &&
            t.month = b.month && t.type = b.type) = true then (1 : Nat) else 0) t := by
      intro t ht
      obtain ⟨hu, hg, hy, hT, hsub, hplain⟩ := htx t ht
      rcases hst : truthyId t.subcategoryId with _ | s
      · exact absurd hst hsub
      · have hc := hcontr t ht s hst
        obtain ⟨hts, hs0⟩ := truthyId_some _ _ hst
        simp only [contribCountAt, hc]
        by_cases he : ((s, t.month, year, t.type) : AggKey) = keyOf b
        · rw [if_pos he, if_pos ((key_eq_iff t b s year hts hby).mp he)]
        · rw [if_neg he, if_neg (fun hp => he ((key_eq_iff t b s year hts hby).mpr hp))]
    refine ⟨hby, ?_, ?_⟩
    · have ht2 := totalIn_agg store userId year none (keyOf b) hkcomp
      rw [hlist] at ht2
      have ht1 : totalIn (getAggregatedByYear store userId year none) (keyOf b) =
          b.total := by
        unfold totalIn
        rw [hfb]
      rw [ht1] at ht2
      rw [ht2, sum_map_congr _ _ _ hmapT, sum_map_ite_filter]
    · have ht2 := countIn_agg store userId year none (keyOf b) hkcomp
      rw [hlist] at ht2
      have ht1 : countIn (getAggregatedByYear store userId year none) (keyOf b) =
          b.count := by
        unfold countIn
        rw [hfb]
      rw [ht1] at ht2
      rw [ht2, sum_map_congr_nat _ _ _ hmapC, sum_map_ite_length]
  · intro t ht s hst
    have hc := hcontr t ht s hst
    have hkcomp : (((s, t.month, year, t.type) : AggKey)).2.2.1 = year := rfl
    have hhk := (hasKey_agg store userId year none (s, t.month, year, t.type) hkcomp).mpr
      ⟨t, by rw [hlist]; exact ht, by simp [contribKey, hc]⟩
    unfold hasKey at hhk
    rcases hfb : findBucket (getAggregatedByYear store userId year none)
        (s, t.month, year, t.type) with _ | b
    · rw [hfb] at hhk
      cases hhk
    · obtain ⟨hmem, hkey⟩ := mem_of_findBucket _ _ _ hfb
      exact ⟨b, hmem, hkey⟩

/-- Witness for C3: a PREPAID account (id 10, linked subcategory 5); an
EXPENSE of 20 sourced from it changes nothing, and a TRANSFER of 40 into it
adds 40 to exactly the (5, March, 2024, EXPENSE) bucket. -/
theorem aggregation_no_double_count_witness :
    (getAggregatedByYear
        ⟨[⟨1, 1, none, some 5, some 10, none, 20, 2024, 3, 15, CType.EXPENSE⟩],
         [⟨10, 1, none, AccountType.PREPAID, some 5, none, none, none, none⟩]⟩
        1 2024 none =
      getAggregatedByYear
        ⟨[], [⟨10, 1, none, AccountType.PREPAID, some 5, none, none, none, none⟩]⟩
        1 2024 none) ∧
    (totalIn (getAggregatedByYear
        ⟨[⟨2, 1, none, none, some 3, some 10, 40, 2024, 3, 15, CType.TRANSFER⟩],
         [⟨10, 1, none, AccountType.PREPAID, some 5, none, none, none, none⟩]⟩
        1 2024 none) (5, 3, 2024, CType.EXPENSE) =
      totalIn (getAggregatedByYear
        ⟨[], [⟨10, 1, none, AccountType.PREPAID, some 5, none, none, none, none⟩]⟩
        1 2024 none) (5, 3, 2024, CType.EXPENSE) +
        (if ((5, 3, 2024, CType.EXPENSE) : AggKey) = (5, 3, 2024, CType.EXPENSE)
          then (40 : ℚ) else 0)) := by
  constructor
  · exact (aggregation_no_double_count [] []
      [⟨10, 1, none, AccountType.PREPAID, some 5, none, none, none, none⟩]
      ⟨1, 1, none, some 5, some 10, none, 20, 2024, 3, 15, CType.EXPENSE⟩
      1 2024 none).1
      ⟨rfl, 10, ⟨10, 1, none, AccountType.PREPAID, some 5, none, none, none, none⟩,
        by decide, by decide, Or.inl rfl⟩
  · exact ((aggregation_no_double_count [] []
      [⟨10, 1, none, AccountType.PREPAID, some 5, none, none, none, none⟩]
      ⟨2, 1, none, none, some 3, some 10, 40, 2024, 3, 15, CType.TRANSFER⟩
      1 2024 none).2 10
      ⟨10, 1, none, AccountType.PREPAID, some 5, none, none, none, none⟩ 5
      rfl (by decide) (by decide) rfl (by decide) (by decide) rfl
      (5, 3, 2024, CType.EXPENSE)).1

/-- Witness for C4 on two personal INCOME transactions of 2024 sharing
subcategory 5 and January: keys are distinct and every present combination
has a bucket. -/
theorem aggregation_completeness_witness :
    ((getAggregatedByYear
        ⟨[⟨1, 1, none, some 5, none, none, 50, 2024, 1, 10, CType.INCOME⟩,
          ⟨2, 1, none, some 5, none, none, 30, 2024, 1, 12, CType.INCOME⟩], []⟩
        1 2024 none).map keyOf).Nodup ∧
    (∀ t ∈ ([⟨1, 1, none, some 5, none, none, 50, 2024, 1, 10, CType.INCOME⟩,
          ⟨2, 1, none, some 5, none, none, 30, 2024, 1, 12, CType.INCOME⟩] : List AggTx),
      ∀ s, truthyId t.subcategoryId = some s →
        ∃ b ∈ getAggregatedByYear
          ⟨[⟨1, 1, none, some 5, none, none, 50, 2024, 1, 10, CType.INCOME⟩,
            ⟨2, 1, none, some 5, none, none, 30, 2024, 1, 12, CType.INCOME⟩], []⟩
          1 2024 none,
          keyOf b = (s, t.month, 2024, t.type)) := by
  have h := aggregation_completeness
    ⟨[⟨1, 1, none, some 5, none, none, 50, 2024, 1, 10, CType.INCOME⟩,
      ⟨2, 1, none, some 5, none, none, 30, 2024, 1, 12, CType.INCOME⟩], []⟩
    1 2024 (by decide)
  exact ⟨h.1, h.2.2⟩

/-! ## Budget synchronizer and comparison engine (`BudgetService`) -/

inductive BudgetType where
  | MONTHLY
  | ANNUAL
deriving DecidableEq, Repr

/-- A `Budget` row. -/
structure Budget where
  id : Int
  userId : Int
  name : String
  amount : ℚ
  type : BudgetType
  budgetType : CType
  month : Option Nat
  year : Int
  subcategoryId : Option Int
deriving DecidableEq, Repr

/-- The `where` clause `syncBudgets` builds: userId, year and subcategoryId. -/
def budgetKeyMatches (userId : Int) (year : Int) (subcategoryId : Option Int)
    (b : Budget) : Bool :=
  b.userId = userId && b.year = year && b.subcategoryId = subcategoryId

/-- The MONTHLY budgets of the key. -/
def monthlyBudgets (budgets : List Budget) (userId : Int) (year : Int)
    (subcategoryId : Option Int) : List Budget :=
  budgets.filter (fun b => budgetKeyMatches userId year subcategoryId b &&
    b.type = BudgetType.MONTHLY)

/-- `reduce((sum, b) => sum + Number(b.amount), 0)` over the monthly budgets. -/
def totalMonthlyAmount (budgets : List Budget) (userId : Int) (year : Int)
    (subcategoryId : Option Int) : ℚ :=
  (monthlyBudgets budgets userId year subcategoryId).foldl
    (fun sum b => sum + b.amount) 0

/-- `findFirst` of the ANNUAL budget of the key. -/
def annualBudget (budgets : List Budget) (userId : Int) (year : Int)
    (subcategoryId : Option Int) : Option Budget :=
  budgets.find? (fun b => budgetKeyMatches userId year subcategoryId b &&
    b.type = BudgetType.ANNUAL)

/-- `BudgetService.syncBudgets`: when an annual budget and at least one
monthly budget exist for the key and the annual amount differs from the
monthly sum by more than 0.01, set the annual amount to the sum; otherwise
change nothing.  Never creates or deletes rows. -/
def syncBudgets (budgets : List Budget) (userId : Int) (year : Int)
    (subcategoryId : Option Int) : List Budget :=
  let total := totalMonthlyAmount budgets userId year subcategoryId
  match annualBudget budgets userId year subcategoryId with
  | some ab =>
      if (monthlyBudgets budgets userId year subcategoryId).length > 0 ∧
          |ab.amount - total| > 1 / 100 then
        budgets.map (fun b => if b.id = ab.id then { b with amount := total } else b)
      else budgets
  | none => budgets

/-- The payload of `BudgetService.create`. -/
structure BudgetInput where
  name : String
  amount : ℚ
  type : BudgetType
  budgetType : CType
  month : Option Nat
  year : Int
  subcategoryId : Option Int
deriving DecidableEq, Repr

/-- `BudgetService.create`: validate the month/type combination (JS
truthiness: `!data.month` also rejects month 0), append the new row
(`newId` is the database-assigned id), then synchronize the new row's key.
On error the stored rows are unchanged. -/
def budgetCreate (budgets : List Budget) (userId : Int) (newId : Int)
    (data : BudgetInput) : Except (Nat × String) Budget × List Budget :=
  if data.type = BudgetType.MONTHLY ∧ truthyNat data.month = none then
    (Except.error (400, "Month is required for monthly budgets"), budgets)
  else if data.type = BudgetType.ANNUAL ∧ truthyNat data.month ≠ none then
    (Except.error (400, "Month should not be specified for annual budgets"), budgets)
  else
    let b : Budget := ⟨newId, userId, data.name, data.amount, data.type,
      data.budgetType, data.month, data.year, data.subcategoryId⟩
    (Except.ok b, syncBudgets (budgets ++ [b]) userId b.year b.subcategoryId)

/-- `Partial<BudgetInput>`: the fields present in an update payload. -/
structure BudgetPatch where
  name : Option String
  amount : Option ℚ
  type : Option BudgetType
  budgetType : Option CType
  month : Option Nat
  year : Option Int
  subcategoryId : Option Int
deriving DecidableEq, Repr

/-- Spreading the patch over a row (`{ ...data }` passed to the update). -/
def applyPatch (b : Budget) (p : BudgetPatch) : Budget :=
  { b with
    name := p.name.getD b.name
    amount := p.amount.getD b.amount
    type := p.type.getD b.type
    budgetType := p.budgetType.getD b.budgetType
    month := match p.month with | some m => some m | none => b.month
    year := p.year.getD b.year
    subcategoryId := match p.subcategoryId with | some s => some s | none => b.subcategoryId }

/-- `BudgetService.update`: find the caller's budget by id, patch that row,
then synchronize the patched row's resulting (userId, year, subcategoryId)
key — and only that key. -/
def budgetUpdate (budgets : List Budget) (id : Int) (userId : Int)
    (p : BudgetPatch) : Except (Nat × String) Budget × List Budget :=
  match budgets.find? (fun b => b.id = id && b.userId = userId) with
  | none => (Except.error (404, "Budget not found"), budgets)
  | some b =>
      let updated := applyPatch b p
      let afterUpdate := budgets.map (fun r => if r.id = id then applyPatch r p else r)
      (Except.ok updated, syncBudgets afterUpdate userId updated.year updated.subcategoryId)

/-- A `Transaction` row as consulted by the comparison engine. -/
structure CmpTx where
  userId : Int
  subcategoryId : Option Int
  amount : ℚ
  year : Int
  month : Nat
  day : Nat
  type : CType
deriving DecidableEq, Repr

structure CmpResult where
  budgeted : ℚ
  actual : ℚ
  difference : ℚ
deriving DecidableEq, Repr

/-- JS `new Date(year, monthIndex, 1)` normalization: a month index of 12
rolls into January of the next year. -/
def jsMonthNorm (year : Int) (monthIndex : Nat) : Int × Nat :=
  (year + monthIndex / 12, monthIndex % 12 + 1)

/-- The budget `where` clause of `getComparison` (JS truthiness on the
optional month and subcategory filters). -/
def budgetFilter (userId : Int) (year : Int) (month : Option Nat)
    (subcategoryId : Option Int) (budgetType : Option CType) (b : Budget) : Bool :=
  b.userId = userId && b.year = year &&
  b.type = (match truthyNat month with
    | some _ => BudgetType.MONTHLY
    | none => BudgetType.ANNUAL) &&
  (match truthyNat month with | some m => b.month = some m | none => true) &&
  (match truthyId subcategoryId with | some s => b.subcategoryId = some s | none => true) &&
  (match budgetType with | some bt => b.budgetType = bt | none => true)

/-- The transaction `where` clause of `getComparison`: the user's rows within
[year-month-01, next period), optionally restricted to a subcategory and to a
category type.  Note: no `groupId` restriction and no TRANSFER exclusion
appear in the source. -/
def cmpTxFilter (userId : Int) (year : Int) (month : Option Nat)
    (subcategoryId : Option Int) (budgetType : Option CType) (t : CmpTx) : Bool :=
  let start := jsMonthNorm year (match truthyNat month with
    | some m => m - 1
    | none => 0)
  let stop := match truthyNat month with
    | some m => jsMonthNorm year m
    | none => (year + 1, 1)
  t.userId = userId &&
  !(dateLtTuple t.year t.month t.day start.1 start.2 1) &&
  dateLtTuple t.year t.month t.day stop.1 stop.2 1 &&
  (match truthyId subcategoryId with | some s => t.subcategoryId = some s | none => true) &&
  (match budgetType with | some bt => t.type = bt | none => true)

/-- `BudgetService.getComparison`. -/
def getComparison (budgets : List Budget) (txs : List CmpTx) (userId : Int)
    (year : Int) (month : Option Nat) (subcategoryId : Option Int)
    (budgetType : Option CType) : CmpResult :=
  let bs := budgets.filter (budgetFilter userId year month subcategoryId budgetType)
  let budgeted := bs.foldl (fun sum b => sum + b.amount) 0
  let ts := txs.filter (cmpTxFilter userId year month subcategoryId budgetType)
  let actual := ts.foldl (fun sum t => sum + t.amount) 0
  ⟨budgeted, actual, budgeted - actual⟩

/-- The actual-spend sum as the claim words it: matching transactions in the
window with TRANSFER transactions excluded. -/
def claimedActual (txs : List CmpTx) (userId : Int) (year : Int)
    (month : Option Nat) (subcategoryId : Option Int)
    (budgetType : Option CType) : ℚ :=
  ((txs.filter (fun t => cmpTxFilter userId year month subcategoryId budgetType t &&
      t.type ≠ CType.TRANSFER)).map (fun t => t.amount)).sum

theorem budget_eq_of_id_nodup (l : List Budget)
    (h : (l.map (fun b => b.id)).Nodup) :
    ∀ b1 ∈ l, ∀ b2 ∈ l, b1.id = b2.id → b1 = b2 := by
  induction l with
  | nil => intro b1 h1; cases h1
  | cons c rest ih =>
      rw [List.map_cons, List.nodup_cons] at h
      intro b1 h1 b2 h2 he
      rcases List.mem_cons.mp h1 with rfl | h1r
      · rcases List.mem_cons.mp h2 with rfl | h2r
        · rfl
        · exact absurd (by rw [he]; exact List.mem_map_of_mem _ h2r) h.1
      · rcases List.mem_cons.mp h2 with rfl | h2r
        · exact absurd (by rw [← he]; exact List.mem_map_of_mem _ h1r) h.1
        · exact ih h.2 b1 h1r b2 h2r he


/-- C5: `syncBudgets` never creates or deletes rows (same ids in the same
order); every row keeps all its fields, the amount included, except that the
annual row of the key may take the monthly sum as its amount; when an annual
budget and a monthly budget exist for the key and the annual amount differs
from the monthly sum by more than 0.01, the annual amount becomes that sum;
otherwise the rows are untouched.  In particular, creating monthly budgets of
500 and 600 against an existing annual budget of 0 leaves the annual amount
at 1100. -/
theorem syncBudgets_spec (budgets : List Budget) (userId year : Int)
    (subcategoryId : Option Int)
    (hids : (budgets.map (fun b => b.id)).Nodup) :
    ((syncBudgets budgets userId year subcategoryId).map (fun b => b.id) =
      budgets.map (fun b => b.id)) ∧
    (∀ b2 ∈ syncBudgets budgets userId year subcategoryId,
      ∃ b ∈ budgets, b2.id = b.id ∧ b2.userId = b.userId ∧ b2.name = b.name ∧
        b2.type = b.type ∧ b2.budgetType = b.budgetType ∧ b2.month = b.month ∧
        b2.year = b.year ∧ b2.subcategoryId = b.subcategoryId ∧
        (b2.amount = b.amount ∨
          (b.type = BudgetType.ANNUAL ∧
            budgetKeyMatches userId year subcategoryId b = true ∧
            b2.amount = totalMonthlyAmount budgets userId year subcategoryId))) ∧
    (∀ ab, annualBudget budgets userId year subcategoryId = some ab →
      monthlyBudgets budgets userId year subcategoryId ≠ [] →
      |ab.amount - totalMonthlyAmount budgets userId year subcategoryId| > 1 / 100 →
      annualBudget (syncBudgets budgets userId year subcategoryId) userId year
          subcategoryId =
        some { ab with amount := totalMonthlyAmount budgets userId year subcategoryId }) ∧
    ((annualBudget budgets userId year subcategoryId = none ∨
      monthlyBudgets budgets userId year subcategoryId = [] ∨
      ∀ ab, annualBudget budgets userId year subcategoryId = some ab →
        |ab.amount - totalMonthlyAmount budgets userId year subcategoryId| ≤ 1 / 100) →
      syncBudgets budgets userId year subcategoryId = budgets) ∧
    (annualBudget (budgetCreate (budgetCreate
        [⟨1, 1, "a", 0, BudgetType.ANNUAL, CType.EXPENSE, none, 2024, some 7⟩]
        1 2 ⟨"b", 500, BudgetType.MONTHLY, CType.EXPENSE, some 1, 2024, some 7⟩).2
        1 3 ⟨"c", 600, BudgetType.MONTHLY, CType.EXPENSE, some 2, 2024, some 7⟩).2
        1 2024 (some 7) =
      some ⟨1, 1, "a", 1100, BudgetType.ANNUAL, CType.EXPENSE, none, 2024, some 7⟩) := by
  have hex : annualBudget (budgetCreate (budgetCreate
      [⟨1, 1, "a", 0, BudgetType.ANNUAL, CType.EXPENSE, none, 2024, some 7⟩]
      1 2 ⟨"b", 500, BudgetType.MONTHLY, CType.EXPENSE, some 1, 2024, some 7⟩).2
      1 3 ⟨"c", 600, BudgetType.MONTHLY, CType.EXPENSE, some 2, 2024, some 7⟩).2
      1 2024 (some 7) =
      some ⟨1, 1, "a", 1100, BudgetType.ANNUAL, CType.EXPENSE, none, 2024, some 7⟩ := by
    norm_num [budgetCreate, syncBudgets, annualBudget, monthlyBudgets,
      totalMonthlyAmount, budgetKeyMatches, truthyNat, List.filter_cons,
      List.find?_cons,
      eq_false (show ¬(BudgetType.ANNUAL = BudgetType.MONTHLY) from by decide),
      eq_false (show ¬(BudgetType.MONTHLY = BudgetType.ANNUAL) from by decide),
      eq_false (show ¬((some 2 : Option Nat) = none) from by decide),
      eq_false (show ¬((some 1 : Option Nat) = none) from by decide)]
  rcases hann : annualBudget budgets userId year subcategoryId with _ | ab
  · refine ⟨?_, ?_, ?_, ?_, hex⟩
    · simp [syncBudgets, hann]
    · intro b2 hb2
      rw [syncBudgets, hann] at hb2
      exact ⟨b2, hb2, rfl, rfl, rfl, rfl, rfl, rfl, rfl, rfl, Or.inl rfl⟩
    · intro ab2 habs
      cases habs
    · intro _
      simp [syncBudgets, hann]
  · by_cases hcond : (monthlyBudgets budgets userId year subcategoryId).length > 0 ∧
        |ab.amount - totalMonthlyAmount budgets userId year subcategoryId| > 1 / 100
    · have hsync : syncBudgets budgets userId year subcategoryId =
          budgets.map (fun b => if b.id = ab.id then
            { b with amount := totalMonthlyAmount budgets userId year subcategoryId }
            else b) := by
        unfold syncBudgets
        rw [hann]
        dsimp only
        rw [if_pos hcond]
      have hfind : budgets.find? (fun b => budgetKeyMatches userId year subcategoryId b &&
          b.type = BudgetType.ANNUAL) = some ab := hann
      have habmem : ab ∈ budgets := List.mem_of_find?_eq_some hfind
      have habpred := List.find?_some hfind
      refine ⟨?_, ?_, ?_, ?_, hex⟩
      · rw [hsync, List.map_map]
        have hfid : ((fun b : Budget => b.id) ∘ (fun b => if b.id = ab.id then
            { b with amount := totalMonthlyAmount budgets userId year subcategoryId }
            else b)) = fun b : Budget => b.id := by
          funext b
          by_cases hbid : b.id = ab.id <;> simp [hbid]
        rw [hfid]
      · intro b2 hb2
        rw [hsync] at hb2
        obtain ⟨b, hbmem, hbeq⟩ := List.mem_map.mp hb2
        by_cases hbid : b.id = ab.id
        · have hbab : b = ab := budget_eq_of_id_nodup budgets hids b hbmem ab habmem hbid
          rw [if_pos hbid] at hbeq
          refine ⟨b, hbmem, by rw [← hbeq], by rw [← hbeq], by rw [← hbeq],
            by rw [← hbeq], by rw [← hbeq], by rw [← hbeq], by rw [← hbeq],
            by rw [← hbeq], Or.inr ⟨?_, ?_, by rw [← hbeq]⟩⟩
          · subst hbab
            simp only [Bool.and_eq_true, decide_eq_true_eq] at habpred
            exact habpred.2
          · subst hbab
            simp only [Bool.and_eq_true] at habpred
            exact habpred.1
        · rw [if_neg hbid] at hbeq
          subst hbeq
          exact ⟨b, hbmem, rfl, rfl, rfl, rfl, rfl, rfl, rfl, rfl, Or.inl rfl⟩
      · intro ab2 habs hmon habs2
        injection habs with hinj
        subst hinj
        rw [hsync]
        unfold annualBudget
        rw [List.find?_map]
        have hfun : ((fun b => budgetKeyMatches userId year subcategoryId b &&
            b.type = BudgetType.ANNUAL) ∘ (fun b : Budget => if b.id = ab.id then
              { b with amount := totalMonthlyAmount budgets userId year subcategoryId }
              else b)) = (fun b => budgetKeyMatches userId year subcategoryId b &&
            b.type = BudgetType.ANNUAL) := by
          funext b
          by_cases hbid : b.id = ab.id <;> simp [hbid, budgetKeyMatches]
        rw [hfun]
        rw [hfind]
        simp
      · intro hno
        have hsync : syncBudgets budgets userId year subcategoryId = budgets := by
          unfold syncBudgets
          rw [hann]
          dsimp only
          rcases hno with hno | hno | hno
          · cases hno
          · rw [if_neg (by simp [hno])]
          · have hle := hno ab rfl
            rw [if_neg (by push_neg; intro _; exact hle)]
        exact hsync
    · have hsync : syncBudgets budgets userId year subcategoryId = budgets := by
        unfold syncBudgets
        rw [hann]
        dsimp only
        rw [if_neg hcond]
      refine ⟨by rw [hsync], ?_, ?_, fun _ => hsync, hex⟩
      · intro b2 hb2
        rw [hsync] at hb2
        exact ⟨b2, hb2, rfl, rfl, rfl, rfl, rfl, rfl, rfl, rfl, Or.inl rfl⟩
      · intro ab2 habs hmon habs2
        injection habs with hinj
        subst hinj
        exact absurd ⟨List.length_pos.mpr hmon, habs2⟩ hcond

/-- Witness for C5: annual 0 with one monthly 500 gets synced to the monthly
sum. -/
theorem syncBudgets_spec_witness :
    annualBudget (syncBudgets
      [⟨1, 1, "a", 0, BudgetType.ANNUAL, CType.EXPENSE, none, 2024, some 7⟩,
       ⟨2, 1, "b", 500, BudgetType.MONTHLY, CType.EXPENSE, some 1, 2024, some 7⟩]
      1 2024 (some 7)) 1 2024 (some 7) =
    some { (⟨1, 1, "a", 0, BudgetType.ANNUAL, CType.EXPENSE, none, 2024, some 7⟩ : Budget) with
      amount := totalMonthlyAmount
        [⟨1, 1, "a", 0, BudgetType.ANNUAL, CType.EXPENSE, none, 2024, some 7⟩,
         ⟨2, 1, "b", 500, BudgetType.MONTHLY, CType.EXPENSE, some 1, 2024, some 7⟩]
        1 2024 (some 7) } := by
  exact (syncBudgets_spec
    [⟨1, 1, "a", 0, BudgetType.ANNUAL, CType.EXPENSE, none, 2024, some 7⟩,
     ⟨2, 1, "b", 500, BudgetType.MONTHLY, CType.EXPENSE, some 1, 2024, some 7⟩]
    1 2024 (some 7) (by decide)).2.2.1
    ⟨1, 1, "a", 0, BudgetType.ANNUAL, CType.EXPENSE, none, 2024, some 7⟩
    rfl (by decide)
    (by norm_num [totalMonthlyAmount, monthlyBudgets, budgetKeyMatches,
      List.filter_cons,
      eq_false (show ¬(BudgetType.ANNUAL = BudgetType.MONTHLY) from by decide)])

/-- C10: a successful `BudgetService.update` synchronizes only the updated
budget's resulting (userId, year, subcategoryId) key: every stored row other
than the updated one whose key differs from that resulting key — in
particular the annual budget of the original key after a move to another
year or subcategory — is left entirely unchanged, at its position. -/
theorem budgetUpdate_frame (budgets : List Budget) (id : Int) (userId : Int)
    (p : BudgetPatch) (b : Budget)
    (hids : (budgets.map (fun r => r.id)).Nodup)
    (hfind : budgets.find? (fun r => r.id = id && r.userId = userId) = some b) :
    ∀ i r, budgets.get? i = some r → r.id ≠ id →
      budgetKeyMatches userId (applyPatch b p).year (applyPatch b p).subcategoryId r = false →
      (budgetUpdate budgets id userId p).2.get? i = some r := by
  intro i r hget hrid hkey
  have hupd : (budgetUpdate budgets id userId p).2 =
      syncBudgets (budgets.map (fun x => if x.id = id then applyPatch x p else x))
        userId (applyPatch b p).year (applyPatch b p).subcategoryId := by
    unfold budgetUpdate
    rw [hfind]
  set au := budgets.map (fun x => if x.id = id then applyPatch x p else x) with hau
  have hau_get : au.get? i = some r := by
    rw [hau, List.get?_map, hget]
    simp [hrid]
  have hau_ids : au.map (fun x => x.id) = budgets.map (fun x => x.id) := by
    rw [hau, List.map_map]
    have hcomp : ((fun x : Budget => x.id) ∘ fun x => if x.id = id then applyPatch x p else x) =
        fun x : Budget => x.id := by
      funext x
      by_cases hx : x.id = id <;> simp [hx, applyPatch]
    rw [hcomp]
  have hau_nodup : (au.map (fun x => x.id)).Nodup := by
    rw [hau_ids]; exact hids
  rw [hupd]
  rcases hann : annualBudget au userId (applyPatch b p).year (applyPatch b p).subcategoryId
    with _ | ab
  · unfold syncBudgets
    rw [hann]
    exact hau_get
  · have hfind2 : au.find? (fun x => budgetKeyMatches userId (applyPatch b p).year
        (applyPatch b p).subcategoryId x && x.type = BudgetType.ANNUAL) = some ab := hann
    have habmem : ab ∈ au := List.mem_of_find?_eq_some hfind2
    have habpred := List.find?_some hfind2
    have hrmem : r ∈ au := List.get?_mem hau_get
    have hrab : r.id ≠ ab.id := by
      intro he
      have hre : r = ab := budget_eq_of_id_nodup au hau_nodup r hrmem ab habmem he
      rw [hre] at hkey
      simp only [Bool.and_eq_true] at habpred
      rw [habpred.1] at hkey
      cases hkey
    unfold syncBudgets
    rw [hann]
    dsimp only
    by_cases hc : (monthlyBudgets au userId (applyPatch b p).year
        (applyPatch b p).subcategoryId).length > 0 ∧
        |ab.amount - totalMonthlyAmount au userId (applyPatch b p).year
          (applyPatch b p).subcategoryId| > 1 / 100
    · rw [if_pos hc, List.get?_map, hau_get]
      simp [hrab]
    · rw [if_neg hc]
      exact hau_get

/-- Witness for C10: moving a monthly budget from 2024 to 2025 leaves the
annual budget of (2024, subcategory 7) untouched at its position. -/
theorem budgetUpdate_frame_witness :
    (budgetUpdate
      [⟨1, 1, "a", 1100, BudgetType.ANNUAL, CType.EXPENSE, none, 2024, some 7⟩,
       ⟨2, 1, "b", 500, BudgetType.MONTHLY, CType.EXPENSE, some 1, 2024, some 7⟩]
      2 1 ⟨none, none, none, none, none, some 2025, none⟩).2.get? 0 =
    some ⟨1, 1, "a", 1100, BudgetType.ANNUAL, CType.EXPENSE, none, 2024, some 7⟩ := by
  exact budgetUpdate_frame
    [⟨1, 1, "a", 1100, BudgetType.ANNUAL, CType.EXPENSE, none, 2024, some 7⟩,
     ⟨2, 1, "b", 500, BudgetType.MONTHLY, CType.EXPENSE, some 1, 2024, some 7⟩]
    2 1 ⟨none, none, none, none, none, some 2025, none⟩
    ⟨2, 1, "b", 500, BudgetType.MONTHLY, CType.EXPENSE, some 1, 2024, some 7⟩
    (by decide) rfl 0
    ⟨1, 1, "a", 1100, BudgetType.ANNUAL, CType.EXPENSE, none, 2024, some 7⟩
    rfl (by decide) rfl

theorem foldl_add_eq_sum_budget (l : List Budget) : ∀ x : ℚ,
    l.foldl (fun sum b => sum + b.amount) x = x + (l.map (fun b => b.amount)).sum := by
  induction l with
  | nil => intro x; simp
  | cons b rest ih =>
      intro x
      simp only [List.foldl_cons, List.map_cons, List.sum_cons, ih]
      ring

theorem foldl_add_eq_sum_cmpTx (l : List CmpTx) : ∀ x : ℚ,
    l.foldl (fun sum t => sum + t.amount) x = x + (l.map (fun t => t.amount)).sum := by
  induction l with
  | nil => intro x; simp
  | cons t rest ih =>
      intro x
      simp only [List.foldl_cons, List.map_cons, List.sum_cons, ih]
      ring

/-- C6 (amended): `getComparison` sums the budgets matching the filters into
`budgeted`, sums ALL transactions of the user inside the
[year-month-01, next-period) window matching the optional subcategory and
type filters into `actual` — with no exclusion of TRANSFER transactions —
and returns `difference = budgeted - actual`.  The last conjunct makes the
inclusion explicit: any matching transaction, a TRANSFER included, adds its
amount to `actual`. -/
theorem getComparison_spec (budgets : List Budget) (txs : List CmpTx)
    (userId : Int) (year : Int) (month : Option Nat) (subcategoryId : Option Int)
    (budgetType : Option CType) :
    (getComparison budgets txs userId year month subcategoryId budgetType).budgeted =
      ((budgets.filter (budgetFilter userId year month subcategoryId budgetType)).map
        (fun b => b.amount)).sum ∧
    (getComparison budgets txs userId year month subcategoryId budgetType).actual =
      ((txs.filter (cmpTxFilter userId year month subcategoryId budgetType)).map
        (fun t => t.amount)).sum ∧
    (getComparison budgets txs userId year month subcategoryId budgetType).difference =
      (getComparison budgets txs userId year month subcategoryId budgetType).budgeted -
        (getComparison budgets txs userId year month subcategoryId budgetType).actual ∧
    (∀ t txs2, cmpTxFilter userId year month subcategoryId budgetType t = true →
      (getComparison budgets (t :: txs2) userId year month subcategoryId budgetType).actual =
        t.amount +
          (getComparison budgets txs2 userId year month subcategoryId budgetType).actual) := by
  refine ⟨?_, ?_, rfl, ?_⟩
  · simp only [getComparison, foldl_add_eq_sum_budget, zero_add]
  · simp only [getComparison, foldl_add_eq_sum_cmpTx, zero_add]
  · intro t txs2 ht
    simp only [getComparison, List.filter_cons, ht, if_pos, foldl_add_eq_sum_cmpTx,
      zero_add, List.map_cons, List.sum_cons]

/-- C6 counterexample: with no filters, a TRANSFER of 40 inside the window is
counted in `actual`, while the claim's sum (TRANSFER excluded) is 0. -/
theorem getComparison_transfer_counterexample :
    (getComparison [] [⟨1, none, 40, 2024, 1, 15, CType.TRANSFER⟩]
      1 2024 none none none).actual = 40 ∧
    claimedActual [⟨1, none, 40, 2024, 1, 15, CType.TRANSFER⟩]
      1 2024 none none none = 0 ∧
    (getComparison [] [⟨1, none, 40, 2024, 1, 15, CType.TRANSFER⟩]
      1 2024 none none none).actual ≠
      claimedActual [⟨1, none, 40, 2024, 1, 15, CType.TRANSFER⟩]
        1 2024 none none none := by
  refine ⟨?_, ?_, ?_⟩
  · norm_num [getComparison, cmpTxFilter, jsMonthNorm, dateLtTuple,
      truthyNat, truthyId, List.filter_cons]
  · norm_num [claimedActual, cmpTxFilter, jsMonthNorm, dateLtTuple,
      truthyNat, truthyId, List.filter_cons]
  · norm_num [getComparison, claimedActual, cmpTxFilter, jsMonthNorm, dateLtTuple,
      truthyNat, truthyId, List.filter_cons]

/-- Witness for C6 on a TRANSFER transaction passing the unfiltered window:
its amount is added to `actual`. -/
theorem getComparison_spec_witness :
    (getComparison [] [⟨1, none, 40, 2024, 1, 15, CType.TRANSFER⟩]
      1 2024 none none none).actual =
      (40 : ℚ) + (getComparison [] [] 1 2024 none none none).actual := by
  exact (getComparison_spec [] [] 1 2024 none none none).2.2.2
    ⟨1, none, 40, 2024, 1, 15, CType.TRANSFER⟩ [] (by decide)

/-! ## Transaction creation (`TransactionService.create`) -/

/-- The fields of a `Subcategory` row the creation validation consults. -/
structure Subcat where
  id : Int
  userId : Int
  groupId : Option Int
deriving DecidableEq, Repr

/-- The `TransactionInput` payload. -/
structure TxInput where
  userId : Option Int
  groupId : Option Int
  subcategoryId : Option Int
  accountId : Option Int
  toAccountId : Option Int
  title : String
  amount : ℚ
  date : String
  time : Option String
  type : CType
deriving DecidableEq, Repr

/-- The stored `Transaction` row produced by `create`. -/
structure TxRecord where
  userId : Int
  groupId : Option Int
  subcategoryId : Option Int
  accountId : Option Int
  toAccountId : Option Int
  title : String
  amount : ℚ
  date : String
  type : CType
deriving DecidableEq, Repr

/-- `TransactionService.create`: resolve the acting user (`data.userId ||
userId`), coerce a non-positive `toAccountId` to null, combine date and
time; a TRANSFER clears the subcategory and requires a truthy positive
destination account; otherwise a provided subcategory must exist and belong
to the transaction's group, or to the resolved user when personal.  All
validation happens before the insert: on error the stored rows are
unchanged. -/
def transactionCreate (subcategories : List Subcat) (txs : List TxRecord)
    (userId : Int) (data : TxInput) :
    Except (Nat × String) TxRecord × List TxRecord :=
  let resolvedUserId := match truthyId data.userId with
    | some u => u
    | none => userId
  let toAcc : Option Int := match truthyId data.toAccountId with
    | some v => if v > 0 then some v else none
    | none => none
  let dateStr := data.date ++ (match data.time with
    | some tm => "T" ++ tm ++ "Z"
    | none => "T00:00:00Z")
  let mkRecord := fun (sub : Option Int) => (⟨resolvedUserId, data.groupId, sub,
    data.accountId, toAcc, data.title, data.amount, dateStr, data.type⟩ : TxRecord)
  if data.type = CType.TRANSFER then
    match truthyId data.toAccountId with
    | some v =>
        if v ≤ 0 then
          (Except.error (400, "toAccountId is required for transfer transactions"), txs)
        else
          (Except.ok (mkRecord none), txs ++ [mkRecord none])
    | none =>
        (Except.error (400, "toAccountId is required for transfer transactions"), txs)
  else
    match data.subcategoryId with
    | some sid =>
        match subcategories.find? (fun sc => sc.id = sid) with
        | none => (Except.error (400, "Subcategory not found"), txs)
        | some sub =>
            match data.groupId with
            | some g =>
                if sub.groupId ≠ some g then
                  (Except.error (400, "Subcategory does not belong to this group"), txs)
                else
                  (Except.ok (mkRecord data.subcategoryId),
                    txs ++ [mkRecord data.subcategoryId])
            | none =>
                if sub.userId ≠ resolvedUserId then
                  (Except.error (400, "Subcategory does not belong to this user"), txs)
                else
                  (Except.ok (mkRecord data.subcategoryId),
                    txs ++ [mkRecord data.subcategoryId])
    | none =>
        (Except.ok (mkRecord data.subcategoryId), txs ++ [mkRecord data.subcategoryId])

/-- C8: a TRANSFER without a destination account (missing, null, zero or
negative `toAccountId`) raises a 400 validation error and creates nothing; a
successful TRANSFER is stored with a null subcategory, appended as the only
new row; and a non-TRANSFER whose provided subcategory does not exist, or
does not belong to the given group (or to the resolved user when personal),
raises a 400 validation error and creates nothing. -/
theorem transactionCreate_spec (subcategories : List Subcat) (txs : List TxRecord)
    (userId : Int) (data : TxInput) :
    ((data.type = CType.TRANSFER ∧
      (match data.toAccountId with
       | none => True
       | some v => v ≤ 0)) →
      (∃ e, (transactionCreate subcategories txs userId data).1 = Except.error e ∧
        e.1 = 400) ∧
      (transactionCreate subcategories txs userId data).2 = txs) ∧
    (∀ r, (transactionCreate subcategories txs userId data).1 = Except.ok r →
      data.type = CType.TRANSFER →
      r.subcategoryId = none ∧
      (transactionCreate subcategories txs userId data).2 = txs ++ [r]) ∧
    (data.type ≠ CType.TRANSFER →
      ∀ sid, data.subcategoryId = some sid →
      (subcategories.find? (fun sc => sc.id = sid) = none ∨
        (∃ sub, subcategories.find? (fun sc => sc.id = sid) = some sub ∧
          (match data.groupId with
           | some g => sub.groupId ≠ some g
           | none => sub.userId ≠ (match truthyId data.userId with
              | some u => u
              | none => userId)))) →
      (∃ e, (transactionCreate subcategories txs userId data).1 = Except.error e ∧
        e.1 = 400) ∧
      (transactionCreate subcategories txs userId data).2 = txs) := by
  refine ⟨?_, ?_, ?_⟩
  · rintro ⟨hT, hto⟩
    rcases hta : data.toAccountId with _ | v
    · simp only [transactionCreate, hT, if_pos, hta, truthyId]
      exact ⟨⟨(400, "toAccountId is required for transfer transactions"), rfl, rfl⟩, trivial⟩
    · rw [hta] at hto
      rcases htr : truthyId (some v) with _ | v2
      · simp only [transactionCreate, hT, if_pos, hta, htr]
        exact ⟨⟨(400, "toAccountId is required for transfer transactions"), rfl, rfl⟩, trivial⟩
      · obtain ⟨hv2, hne⟩ := truthyId_some _ _ htr
        injection hv2 with hv2e
        subst hv2e
        simp only [transactionCreate, hT, if_pos, hta, htr, if_pos hto]
        exact ⟨⟨(400, "toAccountId is required for transfer transactions"), rfl, rfl⟩, trivial⟩
  · intro r hok hT
    rcases hta : truthyId data.toAccountId with _ | v
    · simp only [transactionCreate, hT, if_pos, hta] at hok
      cases hok
    · by_cases hv : v ≤ 0
      · simp only [transactionCreate, hT, if_pos, hta, if_pos hv] at hok
        cases hok
      · simp only [transactionCreate, hT, if_pos, hta, if_neg hv] at hok
        injection hok with hre
        subst hre
        constructor
        · rfl
        · simp only [transactionCreate, hT, if_pos, hta, if_neg hv]
  · intro hT sid hsid hbad
    rcases hbad with hnone | ⟨sub, hfound, hscope⟩
    · simp only [transactionCreate, if_neg hT, hsid, hnone]
      exact ⟨⟨(400, "Subcategory not found"), rfl, rfl⟩, trivial⟩
    · rcases hg : data.groupId with _ | g
      · rw [hg] at hscope
        simp only [transactionCreate, if_neg hT, hsid, hfound, hg, if_pos hscope]
        exact ⟨⟨(400, "Subcategory does not belong to this user"), rfl, rfl⟩, trivial⟩
      · rw [hg] at hscope
        simp only [transactionCreate, if_neg hT, hsid, hfound, hg, if_pos hscope]
        exact ⟨⟨(400, "Subcategory does not belong to this group"), rfl, rfl⟩, trivial⟩

/-- Witness for C8: a TRANSFER with no destination account errors with 400
and stores nothing. -/
theorem transactionCreate_spec_witness :
    (∃ e, (transactionCreate [] [] 5
        ⟨none, none, none, none, none, "t", 10, "2024-01-01", none, CType.TRANSFER⟩).1 =
      Except.error e ∧ e.1 = 400) ∧
    (transactionCreate [] [] 5
        ⟨none, none, none, none, none, "t", 10, "2024-01-01", none, CType.TRANSFER⟩).2 =
      [] := by
  exact (transactionCreate_spec [] [] 5
    ⟨none, none, none, none, none, "t", 10, "2024-01-01", none, CType.TRANSFER⟩).1
    ⟨rfl, trivial⟩

/-! ## Category hide/unhide (`CategoryService.hide` / `unhide`) -/

/-- The fields of a `Category` row the cascade touches. -/
structure CategoryRec where
  id : Int
  userId : Int
  hidden : Bool
deriving DecidableEq, Repr

/-- The fields of a `Subcategory` row the cascade touches. -/
structure SubcatRec where
  id : Int
  categoryId : Int
  hidden : Bool
deriving DecidableEq, Repr

/-- The stored state `hide`/`unhide` read and write. -/
structure CatStore where
  categories : List CategoryRec
  subcategories : List SubcatRec
deriving DecidableEq, Repr

/-- `CategoryService.hide`: find the caller's category, then — inside one
`$transaction`, modelled as this single state transition — set hidden on the
category and on every subcategory referencing it. -/
def categoryHide (store : CatStore) (id : Int) (userId : Int) :
    Except (Nat × String) CatStore :=
  match store.categories.find? (fun c => c.id = id && c.userId = userId) with
  | none => Except.error (404, "Category not found")
  | some _ =>
      Except.ok
        { categories := store.categories.map (fun c =>
            if c.id = id then { c with hidden := true } else c),
          subcategories := store.subcategories.map (fun sc =>
            if sc.categoryId = id then { sc with hidden := true } else sc) }

/-- `CategoryService.unhide`: the same single transition with hidden := false. -/
def categoryUnhide (store : CatStore) (id : Int) (userId : Int) :
    Except (Nat × String) CatStore :=
  match store.categories.find? (fun c => c.id = id && c.userId = userId) with
  | none => Except.error (404, "Category not found")
  | some _ =>
      Except.ok
        { categories := store.categories.map (fun c =>
            if c.id = id then { c with hidden := false } else c),
          subcategories := store.subcategories.map (fun sc =>
            if sc.categoryId = id then { sc with hidden := false } else sc) }

/-- C9: for a category owned by the caller, `hide` produces — in one atomic
transition (the `$transaction` of the source) — a state where the category
and all of its subcategories are hidden, touching nothing else; and `unhide`
likewise produces a state where they are all visible.  No state with the
category hidden but a subcategory visible is ever the result of either
operation. -/
theorem categoryHide_cascade (store : CatStore) (id : Int) (userId : Int) :
    (∀ c, store.categories.find? (fun c => c.id = id && c.userId = userId) = some c →
      ∃ store2, categoryHide store id userId = Except.ok store2 ∧
        (∀ c2 ∈ store2.categories, c2.id = id → c2.hidden = true) ∧
        (∀ sc ∈ store2.subcategories, sc.categoryId = id → sc.hidden = true) ∧
        (∀ c2 ∈ store2.categories, c2.id ≠ id → c2 ∈ store.categories) ∧
        (∀ sc ∈ store2.subcategories, sc.categoryId ≠ id → sc ∈ store.subcategories) ∧
        store2.categories.length = store.categories.length ∧
        store2.subcategories.length = store.subcategories.length) ∧
    (∀ c, store.categories.find? (fun c => c.id = id && c.userId = userId) = some c →
      ∃ store3, categoryUnhide store id userId = Except.ok store3 ∧
        (∀ c2 ∈ store3.categories, c2.id = id → c2.hidden = false) ∧
        (∀ sc ∈ store3.subcategories, sc.categoryId = id → sc.hidden = false) ∧
        (∀ c2 ∈ store3.categories, c2.id ≠ id → c2 ∈ store.categories) ∧
        (∀ sc ∈ store3.subcategories, sc.categoryId ≠ id → sc ∈ store.subcategories)) := by
  constructor
  · intro c hfind
    refine ⟨_, by rw [categoryHide, hfind], ?_, ?_, ?_, ?_, by simp, by simp⟩
    · intro c2 hc2 hc2id
      obtain ⟨c0, hc0, hc0e⟩ := List.mem_map.mp hc2
      by_cases h0 : c0.id = id
      · rw [if_pos h0] at hc0e
        rw [← hc0e]
      · rw [if_neg h0] at hc0e
        subst hc0e
        exact absurd hc2id h0
    · intro sc hsc hscid
      obtain ⟨s0, hs0, hs0e⟩ := List.mem_map.mp hsc
      by_cases h0 : s0.categoryId = id
      · rw [if_pos h0] at hs0e
        rw [← hs0e]
      · rw [if_neg h0] at hs0e
        subst hs0e
        exact absurd hscid h0
    · intro c2 hc2 hc2id
      obtain ⟨c0, hc0, hc0e⟩ := List.mem_map.mp hc2
      by_cases h0 : c0.id = id
      · rw [if_pos h0] at hc0e
        exact absurd (by rw [← hc0e]; exact h0) hc2id
      · rw [if_neg h0] at hc0e
        subst hc0e
        exact hc0
    · intro sc hsc hscid
      obtain ⟨s0, hs0, hs0e⟩ := List.mem_map.mp hsc
      by_cases h0 : s0.categoryId = id
      · rw [if_pos h0] at hs0e
        exact absurd (by rw [← hs0e]; exact h0) hscid
      · rw [if_neg h0] at hs0e
        subst hs0e
        exact hs0
  · intro c hfind
    refine ⟨_, by rw [categoryUnhide, hfind], ?_, ?_, ?_, ?_⟩
    · intro c2 hc2 hc2id
      obtain ⟨c0, hc0, hc0e⟩ := List.mem_map.mp hc2
      by_cases h0 : c0.id = id
      · rw [if_pos h0] at hc0e
        rw [← hc0e]
      · rw [if_neg h0] at hc0e
        subst hc0e
        exact absurd hc2id h0
    · intro sc hsc hscid
      obtain ⟨s0, hs0, hs0e⟩ := List.mem_map.mp hsc
      by_cases h0 : s0.categoryId = id
      · rw [if_pos h0] at hs0e
        rw [← hs0e]
      · rw [if_neg h0] at hs0e
        subst hs0e
        exact absurd hscid h0
    · intro c2 hc2 hc2id
      obtain ⟨c0, hc0, hc0e⟩ := List.mem_map.mp hc2
      by_cases h0 : c0.id = id
      · rw [if_pos h0] at hc0e
        exact absurd (by rw [← hc0e]; exact h0) hc2id
      · rw [if_neg h0] at hc0e
        subst hc0e
        exact hc0
    · intro sc hsc hscid
      obtain ⟨s0, hs0, hs0e⟩ := List.mem_map.mp hsc
      by_cases h0 : s0.categoryId = id
      · rw [if_pos h0] at hs0e
        exact absurd (by rw [← hs0e]; exact h0) hscid
      · rw [if_neg h0] at hs0e
        subst hs0e
        exact hs0

/-- Witness for C9: hiding category 1 (with subcategories 2 of category 1
and 3 of category 9) hides its subcategory and leaves the foreign one. -/
theorem categoryHide_cascade_witness :
    ∃ store2, categoryHide
        ⟨[⟨1, 1, false⟩], [⟨2, 1, false⟩, ⟨3, 9, false⟩]⟩ 1 1 =
      Except.ok store2 ∧
      (∀ c2 ∈ store2.categories, c2.id = 1 → c2.hidden = true) ∧
      (∀ sc ∈ store2.subcategories, sc.categoryId = 1 → sc.hidden = true) ∧
      (∀ c2 ∈ store2.categories, c2.id ≠ 1 →
        c2 ∈ (⟨[⟨1, 1, false⟩], [⟨2, 1, false⟩, ⟨3, 9, false⟩]⟩ : CatStore).categories) ∧
      (∀ sc ∈ store2.subcategories, sc.categoryId ≠ 1 →
        sc ∈ (⟨[⟨1, 1, false⟩], [⟨2, 1, false⟩, ⟨3, 9, false⟩]⟩ : CatStore).subcategories) ∧
      store2.categories.length =
        (⟨[⟨1, 1, false⟩], [⟨2, 1, false⟩, ⟨3, 9, false⟩]⟩ : CatStore).categories.length ∧
      store2.subcategories.length =
        (⟨[⟨1, 1, false⟩], [⟨2, 1, false⟩, ⟨3, 9, false⟩]⟩ : CatStore).subcategories.length := by
  exact (categoryHide_cascade
    ⟨[⟨1, 1, false⟩], [⟨2, 1, false⟩, ⟨3, 9, false⟩]⟩ 1 1).1
    ⟨1, 1, false⟩ (by decide)
